import Mathlib

/-
Verification development for the custom cfn-lint rules in
`shared/lint/rules/custom_rules.py`.

The template document is modelled as a JSON-like `Value` tree.  The dynamic
(duck-typed) Python operations the rules use — `d.get(k)`, `d.get(k, default)`,
`d[k]`, `x in d`, iteration, truthiness — are modelled by explicit functions
returning `Except PyErr _`, raising exactly where CPython raises
(`AttributeError` for `.get` on a non-dict, `TypeError` for `in` on an
unsupported operand, `KeyError` / `IndexError` for subscripts).
-/

namespace CfnLint

/-- A parsed YAML/JSON document node, as handed to the rules by cfn-lint. -/
inductive Value where
  | null
  | str (s : String)
  | int (n : Int)
  | bool (b : Bool)
  | list (xs : List Value)
  | obj (kvs : List (String × Value))

/-- Python exception classes that the rule bodies can raise. -/
inductive PyErr where
  | attributeError
  | typeError
  | keyError
  | indexError
deriving DecidableEq, Repr

/-- cfn-lint `RuleMatch(path, message)`. -/
structure RuleMatch where
  path : List String
  message : String
deriving DecidableEq, Repr

/-- Association-list lookup on the key/value pairs of a dict. -/
def alookup (kvs : List (String × Value)) (k : String) : Option Value :=
  (kvs.find? (fun kv => kv.1 == k)).map Prod.snd

/-- `d.get(k)` — default `None`; raises `AttributeError` when `d` is not a dict. -/
def pyGet (v : Value) (k : String) : Except PyErr Value :=
  match v with
  | .obj kvs => .ok ((alookup kvs k).getD .null)
  | _ => .error .attributeError

/-- `d.get(k, default)` — raises `AttributeError` when `d` is not a dict. -/
def pyGetD (v : Value) (k : String) (d : Value) : Except PyErr Value :=
  match v with
  | .obj kvs => .ok ((alookup kvs k).getD d)
  | _ => .error .attributeError

/-- `d[k]` with a string key — `KeyError` when absent, `TypeError` on non-dicts. -/
def pySubscript (v : Value) (k : String) : Except PyErr Value :=
  match v with
  | .obj kvs =>
    match alookup kvs k with
    | some w => .ok w
    | none => .error .keyError
  | _ => .error .typeError

/-- `v[0]` — first element of a list, first character of a string. -/
def pyIndexZero (v : Value) : Except PyErr Value :=
  match v with
  | .list (x :: _) => .ok x
  | .list [] => .error .indexError
  | .str s =>
    match s.data with
    | c :: _ => .ok (.str (String.mk [c]))
    | [] => .error .indexError
  | .obj _ => .error .keyError
  | _ => .error .typeError

/-- Substring test on `List Char` (`needle` occurs inside the second list). -/
def charsContain (n : List Char) : List Char → Bool
  | [] => n.isEmpty
  | c :: rest => n.isPrefixOf (c :: rest) || charsContain n rest

/-- Python `needle in hay` for two strings: substring containment. -/
def strContains (hay needle : String) : Bool :=
  charsContain needle.data hay.data

/-- Python `needle in v` for a string needle: substring test on strings, key
membership on dicts, element equality on lists, `TypeError` otherwise. -/
def pyContains (needle : String) (v : Value) : Except PyErr Bool :=
  match v with
  | .str s => .ok (strContains s needle)
  | .list xs => .ok (xs.any (fun x => match x with | .str t => t == needle | _ => false))
  | .obj kvs => .ok (kvs.any (fun kv => kv.1 == needle))
  | _ => .error .typeError

/-- Python `for x in v`: lists yield elements, dicts their keys, strings their
characters; anything else raises `TypeError`. -/
def pyIter (v : Value) : Except PyErr (List Value) :=
  match v with
  | .list xs => .ok xs
  | .obj kvs => .ok (kvs.map (fun kv => Value.str kv.1))
  | .str s => .ok (s.data.map (fun c => Value.str (String.mk [c])))
  | _ => .error .typeError

/-- Python truthiness of a value. -/
def pyTruthy (v : Value) : Bool :=
  match v with
  | .null => false
  | .str s => !(s == "")
  | .int n => !(n == 0)
  | .bool b => b
  | .list xs => !xs.isEmpty
  | .obj kvs => !kvs.isEmpty

/-- Python `v is None`. -/
def isNull (v : Value) : Bool :=
  match v with
  | .null => true
  | _ => false

/-- Python `v == s` against a string literal. -/
def isStrEq (v : Value) (s : String) : Bool :=
  match v with
  | .str t => t == s
  | _ => false

mutual

/-- Python `repr()` of a value (used by `str.format` on non-string values). -/
def pyRepr : Value → String
  | .null => "None"
  | .str s => "\x27" ++ s ++ "\x27"
  | .int n => toString n
  | .bool b => if b then "True" else "False"
  | .list xs => "[" ++ pyReprList xs ++ "]"
  | .obj kvs => "\x7b" ++ pyReprObj kvs ++ "\x7d"

/-- Comma-separated reprs of the elements of a list. -/
def pyReprList : List Value → String
  | [] => ""
  | [x] => pyRepr x
  | x :: xs => pyRepr x ++ ", " ++ pyReprList xs

/-- Comma-separated reprs of the entries of a dict. -/
def pyReprObj : List (String × Value) → String
  | [] => ""
  | [(k, v)] => "\x27" ++ k ++ "\x27: " ++ pyRepr v
  | (k, v) :: kvs => "\x27" ++ k ++ "\x27: " ++ pyRepr v ++ ", " ++ pyReprObj kvs

end

/-- Python `str()` of a value, as interpolated by `str.format`. -/
def pyStr (v : Value) : String :=
  match v with
  | .str s => s
  | _ => pyRepr v

/-- State of the left-to-right scan for `$\x7b...\x7d` placeholders. -/
inductive ScanState where
  | plain
  | dollar
  | ref (acc : List Char)

/-- One-pass scan for the regex `\$\x7b[^\x7d]+\x7d`: collects, left to right,
every well-formed non-empty placeholder body (non-overlapping, as `re` does).
An unterminated `$\x7b` never matches, and an empty `$\x7b\x7d` is skipped. -/
def scanStep : List Char → ScanState → List String
  | [], _ => []
  | c :: rest, .plain =>
    if c = '$' then scanStep rest .dollar else scanStep rest .plain
  | c :: rest, .dollar =>
    if c = '\x7b' then scanStep rest (.ref [])
    else if c = '$' then scanStep rest .dollar
    else scanStep rest .plain
  | c :: rest, .ref acc =>
    if c = '\x7d' then
      if acc.isEmpty then scanStep rest .plain
      else String.mk acc.reverse :: scanStep rest .plain
    else scanStep rest (.ref (c :: acc))

/-- All embedded interpolation references of a string, in order. -/
def extractInterpolationRefs (s : String) : List String :=
  scanStep s.data .plain

/-- The reference resolver's `re.search` over the placeholder pattern: the
first embedded reference, if any. -/
def searchInterpolationRef (s : String) : Option String :=
  (extractInterpolationRefs s).head?

/-- A string contains the two-character placeholder opener. -/
def hasInterpStart : List Char → Bool
  | '$' :: '\x7b' :: _ => true
  | _ :: rest => hasInterpStart rest
  | [] => false

/-- Modelled from the spec: the Document Model (cfn-lint `Template`), a root
object with optional `Parameters` and `Resources` sections (spec §3, §6). -/
structure Template where
  parameters : List (String × Value)
  resources : List (String × Value)

/-- A resource body carries the given type tag. -/
def hasType (v : Value) (ty : String) : Bool :=
  match v with
  | .obj kvs =>
    match alookup kvs "Type" with
    | some (.str t) => t == ty
    | _ => false
  | _ => false

/-- Modelled from the spec: `get_resources(type_filter)` of the external
document-model collaborator — the resources whose type tag matches, in
document order (spec §4.1). -/
def getResources (cfn : Template) (ty : String) : List (String × Value) :=
  cfn.resources.filter (fun kv => hasType kv.2 ty)

/-- Modelled from the spec: `get_parameters()` — the Parameters section
(spec §4.1). -/
def getParameters (cfn : Template) : List (String × Value) :=
  cfn.parameters

/-! ### E9000 — MandatoryParametersRule -/

/-- The rule's `_mandatory_parameters` class attribute. -/
def mandatoryParametersList : List String := ["Environment"]

/-- `MandatoryParametersRule.match`.  The first component of the result is the
rule's stored `_mandatory_parameters` after the run: the body works on a
`copy.deepcopy`, so the stored list is returned unchanged. -/
def mandatoryParametersMatch (stored : List String) (cfn : Template) :
    List String × List RuleMatch :=
  let remaining :=
    (getParameters cfn).foldl
      (fun acc kv => if acc.contains kv.1 then acc.erase kv.1 else acc)
      stored
  (stored,
    remaining.map (fun p =>
      ⟨["Parameters"], "Missing parameter \x27" ++ p ++ "\x27"⟩))

/-! ### E9001 — Python39Rule -/

/-- Loop body of `Python39Rule.match` over `get_resources(["AWS::Lambda::Function"])`:
`value.get("Properties").get("Runtime")` is compared against `"python3.9"`
(note the missing default in the first `get`: an absent `Properties` yields
`None`, and `None.get` raises `AttributeError`). -/
def python39Go : List (String × Value) → Except PyErr (List RuleMatch)
  | [] => .ok []
  | (k, v) :: rest => do
    let props ← pyGet v "Properties"
    let rt ← pyGet props "Runtime"
    let ms ← python39Go rest
    if isStrEq rt "python3.9" then
      pure ms
    else
      pure (⟨["Resources", k],
        "Function is using " ++ pyStr rt ++ " runtime instead of python3.9"⟩ :: ms)

/-- `Python39Rule.match`. -/
def python39Match (cfn : Template) : Except PyErr (List RuleMatch) :=
  python39Go (getResources cfn "AWS::Lambda::Function")

/-! ### E9002 — LambdaLogGroupRule -/

/-- The E9002 violation for one function. -/
def e9002Violation (f : String) : RuleMatch :=
  ⟨["Resources", f], "Function " ++ f ++ " does not have a corresponding log group"⟩

/-- One iteration of the log-group scan of `LambdaLogGroupRule.match`: the
captured reference name this log group contributes to `known`, if any.
Mirrors the source: `resource.get("Properties")` (default `None`, so a
missing `Properties` raises via `in None`), the `isinstance(dict)` /
`"Fn::Sub" in` guards, and `re.search` on the `Fn::Sub` payload. -/
def logGroupKnownStep (v : Value) : Except PyErr (Option String) := do
  let props ← pyGet v "Properties"
  let c ← pyContains "LogGroupName" props
  if !c then
    pure none
  else do
    let props2 ← pyGet v "Properties"
    let lgn ← pyGet props2 "LogGroupName"
    match lgn with
    | .obj kvs =>
      if !(kvs.any (fun kv => kv.1 == "Fn::Sub")) then
        pure none
      else do
        let sub ← pySubscript lgn "Fn::Sub"
        match sub with
        | .str s => pure (searchInterpolationRef s)
        | _ => .error .typeError
    | _ => pure none

/-- The `known` list of `LambdaLogGroupRule.match`, built over the log groups. -/
def logGroupKnown : List (String × Value) → Except PyErr (List String)
  | [] => .ok []
  | (_, v) :: rest => do
    let o ← logGroupKnownStep v
    let ks ← logGroupKnown rest
    match o with
    | some f => pure (f :: ks)
    | none => pure ks

/-- `LambdaLogGroupRule.match`. -/
def lambdaLogGroupMatch (cfn : Template) : Except PyErr (List RuleMatch) := do
  let functions := getResources cfn "AWS::Lambda::Function"
  let logGroups := getResources cfn "AWS::Logs::LogGroup"
  let known ← logGroupKnown logGroups
  pure (((functions.map Prod.fst).filter (fun f => !known.contains f)).map e9002Violation)

/-! ### E9003 — LambdaESMDestinationConfig -/

/-- Per-resource test of `LambdaESMDestinationConfig.match`:
`resource.get("Properties", \x7b\x7d).get("DestinationConfig", \x7b\x7d).get("OnFailure", None) is None`. -/
def esmMissingOnFailure (v : Value) : Except PyErr Bool := do
  let props ← pyGetD v "Properties" (.obj [])
  let dc ← pyGetD props "DestinationConfig" (.obj [])
  let onf ← pyGetD dc "OnFailure" .null
  pure (isNull onf)

/-- Shared loop shape of the rules that emit one violation per flagged
resource, in document order, aborting on the first Python error. -/
def collectViolations (check : Value → Except PyErr Bool) (mk : String → RuleMatch) :
    List (String × Value) → Except PyErr (List RuleMatch)
  | [] => .ok []
  | (k, v) :: rest => do
    let b ← check v
    let ms ← collectViolations check mk rest
    pure (if b then mk k :: ms else ms)

/-- The E9003 violation for one event source mapping. -/
def e9003Violation (k : String) : RuleMatch :=
  ⟨["Resources", k],
    "Event Source Mapping " ++ k ++ " does not have a DestinationConfig with OnFailure destination"⟩

/-- `LambdaESMDestinationConfig.match`. -/
def lambdaESMDestinationMatch (cfn : Template) : Except PyErr (List RuleMatch) :=
  collectViolations esmMissingOnFailure e9003Violation
    (getResources cfn "AWS::Lambda::EventSourceMapping")

/-! ### E9004 — LambdaRuleInvokeConfig -/

/-- The `invoke_config_functions` list of `LambdaRuleInvokeConfig.match`: for
every `AWS::Lambda::EventInvokeConfig` with a non-null `OnFailure` destination,
the payload of `resource["Properties"]["FunctionName"]["Ref"]`. -/
def invokeConfigFunctions : List (String × Value) → Except PyErr (List Value)
  | [] => .ok []
  | (_, v) :: rest => do
    let props ← pyGetD v "Properties" (.obj [])
    let dc ← pyGetD props "DestinationConfig" (.obj [])
    let onf ← pyGetD dc "OnFailure" .null
    if isNull onf then
      invokeConfigFunctions rest
    else do
      let props2 ← pySubscript v "Properties"
      let fn ← pySubscript props2 "FunctionName"
      let ref ← pySubscript fn "Ref"
      let fs ← invokeConfigFunctions rest
      pure (ref :: fs)

/-- Python `v in names` where `names` are the function logical names. -/
def valueInStrings (v : Value) (names : List String) : Bool :=
  match v with
  | .str s => names.contains s
  | _ => false

/-- Per-target test of `LambdaRuleInvokeConfig.match`: the target has an
`Fn::GetAtt` ARN whose first element names a declared function that is not in
`invoke_config_functions`.  (The source evaluates the subscript chain
`target["Arn"]["Fn::GetAtt"][0]` twice; the lookups are pure, so it is
computed once here.) -/
def ruleTargetFlagged (functionNames : List String) (invokeFns : List Value)
    (t : Value) : Except PyErr Bool := do
  let arn ← pyGetD t "Arn" (.obj [])
  let ga ← pyGetD arn "Fn::GetAtt" .null
  if isNull ga then
    pure false
  else do
    let arn2 ← pySubscript t "Arn"
    let ga2 ← pySubscript arn2 "Fn::GetAtt"
    let e0 ← pyIndexZero ga2
    if !(valueInStrings e0 functionNames) then
      pure false
    else
      match e0 with
      | .str s => pure (!(invokeFns.any (fun x => isStrEq x s)))
      | _ => pure false

/-- The E9004 violation for one events rule. -/
def e9004Violation (k : String) : RuleMatch :=
  ⟨["Resources", k],
    "Rule " ++ k ++ " does not have a corresponding Event Invoke Config with OnFailure destination"⟩

/-- Inner loop of `LambdaRuleInvokeConfig.match` over one rule's targets: the
source appends one violation per qualifying target (there is no break). -/
def ruleTargetsGo (functionNames : List String) (invokeFns : List Value)
    (k : String) : List Value → Except PyErr (List RuleMatch)
  | [] => .ok []
  | t :: rest => do
    let b ← ruleTargetFlagged functionNames invokeFns t
    let ms ← ruleTargetsGo functionNames invokeFns k rest
    pure (if b then e9004Violation k :: ms else ms)

/-- Outer loop of `LambdaRuleInvokeConfig.match` over the events rules. -/
def eventsRulesGo (functionNames : List String) (invokeFns : List Value) :
    List (String × Value) → Except PyErr (List RuleMatch)
  | [] => .ok []
  | (k, v) :: rest => do
    let props ← pyGetD v "Properties" (.obj [])
    let tv ← pyGetD props "Targets" (.list [])
    let targets ← pyIter tv
    let here ← ruleTargetsGo functionNames invokeFns k targets
    let ms ← eventsRulesGo functionNames invokeFns rest
    pure (here ++ ms)

/-- `LambdaRuleInvokeConfig.match`. -/
def lambdaRuleInvokeConfigMatch (cfn : Template) : Except PyErr (List RuleMatch) := do
  let functionNames := (getResources cfn "AWS::Lambda::Function").map Prod.fst
  let rules := getResources cfn "AWS::Events::Rule"
  let invokeFns ← invokeConfigFunctions (getResources cfn "AWS::Lambda::EventInvokeConfig")
  eventsRulesGo functionNames invokeFns rules

/-! ### E9005 — LambdaInsightsLayer -/

/-- The rule's `_layer_pattern` ARN template string. -/
def insightsLayerArn : String :=
  "arn:aws:lambda:$\x7bAWS::Region\x7d:580247275435:layer:LambdaInsightsExtension:2"

/-- Python `==` between the `_layer_pattern` dict and a list element. -/
def isInsightsLayerPattern (v : Value) : Bool :=
  match v with
  | .obj [(k, .str s)] => k == "Fn::Sub" && s == insightsLayerArn
  | _ => false

/-- Python `_layer_pattern in layers`: element equality on lists, `TypeError`
on anything else (a dict is unhashable / not a string). -/
def containsLayerPattern (v : Value) : Except PyErr Bool :=
  match v with
  | .list xs => .ok (xs.any isInsightsLayerPattern)
  | _ => .error .typeError

/-- Per-function test of `LambdaInsightsLayer.match`. -/
def insightsLayerMissing (v : Value) : Except PyErr Bool := do
  let props ← pyGetD v "Properties" (.obj [])
  let layers ← pyGetD props "Layers" (.list [])
  let c ← containsLayerPattern layers
  pure !c

/-- The E9005 violation for one function. -/
def e9005Violation (f : String) : RuleMatch :=
  ⟨["Resources", f], "Function " ++ f ++ " does not use the CloudWatch Lambda Insights layer"⟩

/-- `LambdaInsightsLayer.match`. -/
def lambdaInsightsLayerMatch (cfn : Template) : Except PyErr (List RuleMatch) :=
  collectViolations insightsLayerMissing e9005Violation
    (getResources cfn "AWS::Lambda::Function")

/-! ### E9006 — LambdaInsightsPermission -/

/-- The rule's `_policy_arn`. -/
def insightsPolicyArn : String :=
  "arn:aws:iam::aws:policy/CloudWatchLambdaInsightsExecutionRolePolicy"

/-- Per-function test of `LambdaInsightsPermission.match`:
`roles[f"\x7bfunction_name\x7dRole"]` raises `KeyError` when the
convention-named companion role is absent. -/
def insightsPermissionMissing (roles : List (String × Value)) (f : String) :
    Except PyErr Bool := do
  let role ←
    match alookup roles (f ++ "Role") with
    | some r => Except.ok r
    | none => Except.error .keyError
  let props ← pyGetD role "Properties" (.obj [])
  let arns ← pyGetD props "ManagedPolicyArns" (.list [])
  let c ← pyContains insightsPolicyArn arns
  pure !c

/-- The E9006 violation for one function. -/
def e9006Violation (f : String) : RuleMatch :=
  ⟨["Resources", f], "Function " ++ f ++ " does not have the CloudWatch Lambda Insights managed policy"⟩

/-- Loop of `LambdaInsightsPermission.match` over the function names. -/
def insightsPermissionGo (roles : List (String × Value)) :
    List String → Except PyErr (List RuleMatch)
  | [] => .ok []
  | f :: rest => do
    let b ← insightsPermissionMissing roles f
    let ms ← insightsPermissionGo roles rest
    pure (if b then e9006Violation f :: ms else ms)

/-- `LambdaInsightsPermission.match`. -/
def lambdaInsightsPermissionMatch (cfn : Template) : Except PyErr (List RuleMatch) :=
  insightsPermissionGo (getResources cfn "AWS::IAM::Role")
    ((getResources cfn "AWS::Lambda::Function").map Prod.fst)

/-! ### E9007 — IAMPutEventsConditions -/

/-- Loop of `IAMPutEventsConditions._match_policy` over the statements: a
statement matches when `"events:PutEvents" in statement.get("Action", \x7b\x7d)`
and the `Condition.StringEquals["events:source"]` value is falsy. -/
def matchStatements : List Value → Except PyErr Bool
  | [] => .ok false
  | st :: rest => do
    let action ← pyGetD st "Action" (.obj [])
    let c ← pyContains "events:PutEvents" action
    if c then do
      let cond ← pyGetD st "Condition" (.obj [])
      let se ← pyGetD cond "StringEquals" (.obj [])
      let src ← pyGetD se "events:source" .null
      if !(pyTruthy src) then
        pure true
      else
        matchStatements rest
    else
      matchStatements rest

/-- `IAMPutEventsConditions._match_policy`. -/
def matchPolicy (policy : Value) : Except PyErr Bool := do
  let pd ← pyGetD policy "PolicyDocument" (.obj [])
  let stv ← pyGetD pd "Statement" (.list [])
  let stmts ← pyIter stv
  matchStatements stmts

/-- Loop of `IAMPutEventsConditions.match` over one role's inline policies:
the source keeps evaluating `_match_policy` after a hit (no break), so later
errors still surface; `found` is the disjunction. -/
def rolePoliciesFound : List Value → Except PyErr Bool
  | [] => .ok false
  | p :: rest => do
    let b ← matchPolicy p
    let r ← rolePoliciesFound rest
    pure (b || r)

/-- The E9007 violation for one role. -/
def e9007Violation (k : String) : RuleMatch :=
  ⟨["Resources", k],
    "IAM role " ++ k ++ " does not have an events:source condition for the events:PutEvents action"⟩

/-- Per-role test of `IAMPutEventsConditions.match`. -/
def roleFound (v : Value) : Except PyErr Bool := do
  let props ← pyGetD v "Properties" (.obj [])
  let pv ← pyGetD props "Policies" (.list [])
  let ps ← pyIter pv
  rolePoliciesFound ps

/-- `IAMPutEventsConditions.match`. -/
def iamPutEventsMatch (cfn : Template) : Except PyErr (List RuleMatch) :=
  collectViolations roleFound e9007Violation (getResources cfn "AWS::IAM::Role")

/-! ### Rule engine -/

/-- The only mutable state any rule instance holds: E9000's stored
`_mandatory_parameters` list. -/
structure EngineState where
  mandatoryParameters : List String
deriving DecidableEq

/-- The engine state at startup. -/
def initialEngineState : EngineState :=
  ⟨mandatoryParametersList⟩

/-- Modelled from the spec: the Rule Engine run (spec §4.4) — invoke every
registered rule's match in registration order, concatenate the violations,
abort the run on the first rule error.  Returns the engine state after the
run alongside the violations. -/
def runEngine (st : EngineState) (cfn : Template) :
    EngineState × Except PyErr (List RuleMatch) :=
  let (mp, r0) := mandatoryParametersMatch st.mandatoryParameters cfn
  (⟨mp⟩, do
    let r1 ← python39Match cfn
    let r2 ← lambdaLogGroupMatch cfn
    let r3 ← lambdaESMDestinationMatch cfn
    let r4 ← lambdaRuleInvokeConfigMatch cfn
    let r5 ← lambdaInsightsLayerMatch cfn
    let r6 ← lambdaInsightsPermissionMatch cfn
    let r7 ← iamPutEventsMatch cfn
    pure (r0 ++ r1 ++ r2 ++ r3 ++ r4 ++ r5 ++ r6 ++ r7))

/-! ### Specification-level definitions

The following definitions restate, in the spec's words, the predicates the
claims quantify over; they are compared with the rule implementations above.
-/

/-- Lookup of a property in an object value (`none` on any other shape). -/
def objLookup (v : Value) (k : String) : Option Value :=
  match v with
  | .obj kvs => alookup kvs k
  | _ => none

/-- The interpolation template string of a named log group: the `Fn::Sub`
string payload of its `LogGroupName` property, when that shape is present. -/
def logGroupSubTemplate (v : Value) : Option String :=
  match objLookup v "Properties" with
  | some props =>
    match objLookup props "LogGroupName" with
    | some lgn =>
      match objLookup lgn "Fn::Sub" with
      | some (.str s) => some s
      | _ => none
    | none => none
  | none => none

/-- Modelled from the spec: the covered target of one log group as claim C1
states it — the embedded reference of a `LogGroupName` interpolation that
contains exactly one embedded reference. -/
def c1ClaimCoveredOf (v : Value) : Option String :=
  match logGroupSubTemplate v with
  | some s =>
    match extractInterpolationRefs s with
    | [f] => some f
    | _ => none
  | none => none

/-- The covered set of claim C1 as stated (exactly-one-reference log groups). -/
def c1ClaimCovered (cfn : Template) : List String :=
  (getResources cfn "AWS::Logs::LogGroup").filterMap (fun kv => c1ClaimCoveredOf kv.2)

/-- The violations claim C1 as stated predicts for E9002. -/
def c1ClaimViolations (cfn : Template) : List RuleMatch :=
  (((getResources cfn "AWS::Lambda::Function").map Prod.fst).filter
    (fun f => !(c1ClaimCovered cfn).contains f)).map e9002Violation

/-- The covered target of one log group as the code computes it: the first
(leftmost) embedded reference of the `LogGroupName` interpolation, when the
interpolation contains at least one embedded reference. -/
def e9002CoveredOf (v : Value) : Option String :=
  (logGroupSubTemplate v).bind searchInterpolationRef

/-- The covered set of the E9002 log-group rule (first-reference semantics). -/
def e9002Covered (cfn : Template) : List String :=
  (getResources cfn "AWS::Logs::LogGroup").filterMap (fun kv => e9002CoveredOf kv.2)

/-- A log-group resource whose shape the E9002 scan handles without raising:
it has a `Properties` object, and a `LogGroupName` that is an object with an
`Fn::Sub` key carries a string payload. -/
def logGroupBenign (v : Value) : Bool :=
  match v with
  | .obj kvs =>
    match alookup kvs "Properties" with
    | some (.obj pkvs) =>
      match alookup pkvs "LogGroupName" with
      | some (.obj lkvs) =>
        match alookup lkvs "Fn::Sub" with
        | some (.str _) => true
        | some _ => false
        | none => true
      | some _ => true
      | none => true
    | _ => false
  | _ => false

/-- The function name one event-invoke-config covers, as the spec states it:
the string `Ref` payload of its `FunctionName` when its `OnFailure`
destination is non-null. -/
def e9004CoveredOf (v : Value) : Option String :=
  match objLookup v "Properties" with
  | some props =>
    match objLookup props "DestinationConfig" with
    | some dc =>
      match objLookup dc "OnFailure" with
      | some onf =>
        if isNull onf then none
        else
          match objLookup props "FunctionName" with
          | some fn =>
            match objLookup fn "Ref" with
            | some (.str s) => some s
            | _ => none
          | none => none
      | none => none
    | none => none
  | none => none

/-- The E9004 covered set as the spec states it: logical names of functions
named (via `Ref`) by an `EventInvokeConfig` with a non-null `OnFailure`
destination. -/
def e9004Covered (cfn : Template) : List String :=
  (getResources cfn "AWS::Lambda::EventInvokeConfig").filterMap (fun kv => e9004CoveredOf kv.2)

/-- The `Ref` payload one event-invoke-config appends to
`invoke_config_functions` (any value, not only strings). -/
def icRefOf (v : Value) : Option Value :=
  match objLookup v "Properties" with
  | some props =>
    match objLookup props "DestinationConfig" with
    | some dc =>
      match objLookup dc "OnFailure" with
      | some onf =>
        if isNull onf then none
        else
          match objLookup props "FunctionName" with
          | some fn => objLookup fn "Ref"
          | none => none
      | none => none
    | none => none
  | none => none

/-- The target list of an events rule. -/
def targetsOf (v : Value) : List Value :=
  match objLookup v "Properties" with
  | some props =>
    match objLookup props "Targets" with
    | some (.list ts) => ts
    | _ => []
  | none => []

/-- A target qualifies for an E9004 violation: its ARN is an `Fn::GetAtt`
whose first element names a declared function outside the covered set. -/
def e9004TargetQualifies (functionNames covered : List String) (t : Value) : Bool :=
  match objLookup t "Arn" with
  | some arn =>
    match objLookup arn "Fn::GetAtt" with
    | some (.list (.str s :: _)) => functionNames.contains s && !covered.contains s
    | _ => false
  | none => false

/-- An event-invoke-config resource whose shape E9004 handles without raising:
sections are objects where present, and a config with a non-null `OnFailure`
has a `FunctionName` object with a `Ref` key. -/
def invokeConfigBenign (v : Value) : Bool :=
  match v with
  | .obj kvs =>
    match alookup kvs "Properties" with
    | none => true
    | some (.obj pkvs) =>
      match alookup pkvs "DestinationConfig" with
      | none => true
      | some (.obj dkvs) =>
        match alookup dkvs "OnFailure" with
        | none => true
        | some onf =>
          if isNull onf then true
          else
            match alookup pkvs "FunctionName" with
            | some (.obj fkvs) => (alookup fkvs "Ref").isSome
            | _ => false
      | some _ => false
    | some _ => false
  | _ => false

/-- A rule target whose shape E9004 handles without raising: an object whose
`Arn`, when present, is an object whose `Fn::GetAtt`, when present, is null or
a non-empty list. -/
def targetBenign (t : Value) : Bool :=
  match t with
  | .obj tkvs =>
    match alookup tkvs "Arn" with
    | none => true
    | some (.obj akvs) =>
      match alookup akvs "Fn::GetAtt" with
      | none => true
      | some .null => true
      | some (.list (_ :: _)) => true
      | some _ => false
    | some _ => false
  | _ => false

/-- An events-rule resource whose shape E9004 handles without raising. -/
def eventsRuleBenign (v : Value) : Bool :=
  match v with
  | .obj kvs =>
    match alookup kvs "Properties" with
    | none => true
    | some (.obj pkvs) =>
      match alookup pkvs "Targets" with
      | none => true
      | some (.list ts) => ts.all targetBenign
      | some _ => false
    | some _ => false
  | _ => false

/-- A function resource with no `Properties` object or no `Layers` key. -/
def noLayersKey (v : Value) : Bool :=
  match v with
  | .obj kvs =>
    match alookup kvs "Properties" with
    | none => true
    | some (.obj pkvs) => (alookup pkvs "Layers").isNone
    | some _ => false
  | _ => false

/-- An IAM role whose shape E9006 handles without raising: `Properties` is an
object when present and `ManagedPolicyArns` is a list when present. -/
def iamRoleBenign (v : Value) : Bool :=
  match v with
  | .obj kvs =>
    match alookup kvs "Properties" with
    | none => true
    | some (.obj pkvs) =>
      match alookup pkvs "ManagedPolicyArns" with
      | none => true
      | some (.list _) => true
      | some _ => false
    | some _ => false
  | _ => false

/-- The companion role of function `f` holds the Insights managed policy in
its `ManagedPolicyArns` list. -/
def roleHasInsightsPolicy (roles : List (String × Value)) (f : String) : Bool :=
  match alookup roles (f ++ "Role") with
  | some role =>
    match objLookup role "Properties" with
    | some props =>
      match objLookup props "ManagedPolicyArns" with
      | some (.list xs) => xs.any (fun x => isStrEq x insightsPolicyArn)
      | _ => false
    | none => false
  | none => false

/-- The E9007 action test in the spec's words, for the shapes Python `in`
accepts (substring on a string, element equality on a list, key membership on
a dict). -/
def stmtActionMatches (st : Value) : Bool :=
  match objLookup st "Action" with
  | some (.str s) => strContains s "events:PutEvents"
  | some (.list xs) => xs.any (fun x => match x with | .str t => t == "events:PutEvents" | _ => false)
  | some (.obj kvs) => kvs.any (fun kv => kv.1 == "events:PutEvents")
  | some _ => false
  | none => false

/-- The `Condition.StringEquals["events:source"]` value of a statement
(null when any level is absent). -/
def stmtSourceCondition (st : Value) : Value :=
  match objLookup st "Condition" with
  | some cond =>
    match objLookup cond "StringEquals" with
    | some se => (objLookup se "events:source").getD .null
    | none => .null
  | none => .null

/-- A statement qualifies for E9007 (code semantics): the publish-event action
is in its `Action` and the `events:source` condition value is falsy. -/
def stmtQualifies (st : Value) : Bool :=
  stmtActionMatches st && !(pyTruthy (stmtSourceCondition st))

/-- A policy qualifies for E9007: some statement of its document qualifies. -/
def policyQualifies (p : Value) : Bool :=
  match objLookup p "PolicyDocument" with
  | some pd =>
    match objLookup pd "Statement" with
    | some (.list sts) => sts.any stmtQualifies
    | _ => false
  | none => false

/-- A role qualifies for E9007: some inline policy qualifies. -/
def roleQualifies (v : Value) : Bool :=
  match objLookup v "Properties" with
  | some props =>
    match objLookup props "Policies" with
    | some (.list ps) => ps.any policyQualifies
    | _ => false
  | none => false

/-- Modelled from the spec: claim C6's statement predicate as stated — the
publish-event action is present and there is NO `StringEquals` condition on
the `events:source` key (key absence, not value falsiness). -/
def c6ClaimStmtQualifies (st : Value) : Bool :=
  stmtActionMatches st &&
  (match objLookup st "Condition" with
   | some cond =>
     match objLookup cond "StringEquals" with
     | some se => (objLookup se "events:source").isNone
     | none => true
   | none => true)

/-- Claim C6's role predicate as stated. -/
def c6ClaimRoleQualifies (v : Value) : Bool :=
  match objLookup v "Properties" with
  | some props =>
    match objLookup props "Policies" with
    | some (.list ps) => ps.any (fun p =>
      match objLookup p "PolicyDocument" with
      | some pd =>
        match objLookup pd "Statement" with
        | some (.list sts) => sts.any c6ClaimStmtQualifies
        | _ => false
      | none => false)
    | _ => false
  | none => false

/-- A statement whose shape `_match_policy` handles without raising. -/
def stmtBenign (st : Value) : Bool :=
  match st with
  | .obj kvs =>
    (match alookup kvs "Action" with
     | none => true
     | some (.str _) => true
     | some (.list _) => true
     | some (.obj _) => true
     | some _ => false) &&
    (match alookup kvs "Condition" with
     | none => true
     | some (.obj ckvs) =>
       match alookup ckvs "StringEquals" with
       | none => true
       | some (.obj _) => true
       | some _ => false
     | some _ => false)
  | _ => false

/-- A policy whose shape `_match_policy` handles without raising. -/
def policyBenign (p : Value) : Bool :=
  match p with
  | .obj kvs =>
    match alookup kvs "PolicyDocument" with
    | none => true
    | some (.obj dkvs) =>
      match alookup dkvs "Statement" with
      | none => true
      | some (.list sts) => sts.all stmtBenign
      | some _ => false
    | some _ => false
  | _ => false

/-- A role whose shape E9007 handles without raising. -/
def e9007RoleBenign (v : Value) : Bool :=
  match v with
  | .obj kvs =>
    match alookup kvs "Properties" with
    | none => true
    | some (.obj pkvs) =>
      match alookup pkvs "Policies" with
      | none => true
      | some (.list ps) => ps.all policyBenign
      | some _ => false
    | some _ => false
  | _ => false

/-! ### Concrete templates used by the witnesses and counterexamples -/

/-- A function `Foo` with a log group named `"/aws/lambda/$\x7bFoo\x7d"`. -/
def fooTemplate : Template :=
  ⟨[], [("Foo", .obj [("Type", .str "AWS::Lambda::Function")]),
        ("FooLogGroup", .obj [("Type", .str "AWS::Logs::LogGroup"),
          ("Properties", .obj [("LogGroupName",
            .obj [("Fn::Sub", .str "/aws/lambda/$\x7bFoo\x7d")])])])]⟩

/-- A function `Bar` with no matching log group. -/
def barTemplate : Template :=
  ⟨[], [("Bar", .obj [("Type", .str "AWS::Lambda::Function")])]⟩

/-- A function `A` and a log group whose name interpolation embeds TWO
references, the first of which targets `A`. -/
def c1CexTemplate : Template :=
  ⟨[], [("A", .obj [("Type", .str "AWS::Lambda::Function")]),
        ("LG", .obj [("Type", .str "AWS::Logs::LogGroup"),
          ("Properties", .obj [("LogGroupName",
            .obj [("Fn::Sub", .str "/aws/lambda/$\x7bA\x7d-$\x7bB\x7d")])])])]⟩

/-- A function resource with a `Type` but no `Properties` key. -/
def c3FnTemplate : Template :=
  ⟨[], [("MyFunction", .obj [("Type", .str "AWS::Lambda::Function")])]⟩

/-- A log-group resource with a `Type` but no `Properties` key. -/
def c3LgTemplate : Template :=
  ⟨[], [("MyLogGroup", .obj [("Type", .str "AWS::Logs::LogGroup")])]⟩

/-- One events rule with two targets, both attribute references to declared
functions that have no event invoke config. -/
def c2CexTemplate : Template :=
  ⟨[], [("F1", .obj [("Type", .str "AWS::Lambda::Function")]),
        ("F2", .obj [("Type", .str "AWS::Lambda::Function")]),
        ("R", .obj [("Type", .str "AWS::Events::Rule"),
          ("Properties", .obj [("Targets", .list
            [.obj [("Arn", .obj [("Fn::GetAtt", .list [.str "F1", .str "Arn"])])],
             .obj [("Arn", .obj [("Fn::GetAtt", .list [.str "F2", .str "Arn"])])]])])])]⟩

/-- A role whose statement has the publish-event action and a `StringEquals`
condition on `events:source` whose value is the empty string (present but
falsy). -/
def c6CexTemplate : Template :=
  ⟨[], [("MyRole", .obj [("Type", .str "AWS::IAM::Role"),
          ("Properties", .obj [("Policies", .list
            [.obj [("PolicyDocument", .obj [("Statement", .list
              [.obj [("Action", .str "events:PutEvents"),
                     ("Condition", .obj [("StringEquals",
                       .obj [("events:source", .str "")])])]])])]])])])]⟩

/-- The role value of `c6CexTemplate`. -/
def c6CexRole : Value :=
  .obj [("Type", .str "AWS::IAM::Role"),
        ("Properties", .obj [("Policies", .list
          [.obj [("PolicyDocument", .obj [("Statement", .list
            [.obj [("Action", .str "events:PutEvents"),
                   ("Condition", .obj [("StringEquals",
                     .obj [("events:source", .str "")])])]])])]])])]

/-- A function `F` whose companion role `FRole` carries the Insights policy. -/
def c5Template : Template :=
  ⟨[], [("F", .obj [("Type", .str "AWS::Lambda::Function")]),
        ("FRole", .obj [("Type", .str "AWS::IAM::Role"),
          ("Properties", .obj [("ManagedPolicyArns",
            .list [.str insightsPolicyArn])])])]⟩

/-- A policy whose single statement's `Action` is a scalar string that merely
contains `"events:PutEvents"` as a substring. -/
def c10ScalarPolicy : Value :=
  .obj [("PolicyDocument", .obj [("Statement", .list
    [.obj [("Action", .str "xxevents:PutEventsyy")]])])]

/-- The same action string as `c10ScalarPolicy`, but as a list element. -/
def c10ListPolicy : Value :=
  .obj [("PolicyDocument", .obj [("Statement", .list
    [.obj [("Action", .list [.str "xxevents:PutEventsyy"])]])])]

/-- A template with an empty `Parameters` section. -/
def emptyParamsTemplate : Template := ⟨[], []⟩

/-- A template whose `Parameters` contain `Environment`. -/
def envParamsTemplate : Template := ⟨[("Environment", .obj [("Type", .str "String")])], []⟩

/-! ### Helper lemmas -/

/-- Bind on a successful `Except` computation reduces. -/
@[simp] theorem exceptBind_ok {α β : Type} (a : α) (f : α → Except PyErr β) :
    (Except.ok a >>= f) = f a := rfl

/-- Bind on a failed `Except` computation propagates the error. -/
@[simp] theorem exceptBind_err {α β : Type} (e : PyErr) (f : α → Except PyErr β) :
    ((Except.error e : Except PyErr α) >>= f) = .error e := rfl

/-- `pure` in the `Except` monad is `ok`. -/
@[simp] theorem exceptPure_eq_ok {α : Type} (a : α) :
    (pure a : Except PyErr α) = .ok a := rfl

/-- Key membership in a dict agrees with lookup success. -/
theorem alookup_isSome_eq_any (kvs : List (String × Value)) (k : String) :
    (alookup kvs k).isSome = kvs.any (fun kv => kv.1 == k) := by
  induction kvs with
  | nil => rfl
  | cons kv rest ih =>
    simp only [alookup, List.find?_cons, List.any_cons]
    cases h : kv.1 == k
    · simp only [h, Bool.false_or]
      simpa [alookup] using ih
    · simp [h]

/-- A successful lookup names a value stored in the list. -/
theorem exists_mem_of_alookup (kvs : List (String × Value)) (k : String) (w : Value)
    (h : alookup kvs k = some w) : ∃ k', (k', w) ∈ kvs := by
  unfold alookup at h
  rcases Option.map_eq_some'.mp h with ⟨⟨k', w'⟩, hfind, hw⟩
  cases hw
  exact ⟨k', List.mem_of_find?_eq_some hfind⟩

/-- The placeholder scan finds nothing in a string with no `$\x7b` opener. -/
theorem scan_no_opener : ∀ cs : List Char, charsContain ['$', '\x7b'] cs = false →
    scanStep cs .plain = [] ∧ (cs.head? ≠ some '\x7b' → scanStep cs .dollar = []) := by
  intro cs
  induction cs with
  | nil => exact fun _ => ⟨rfl, fun _ => rfl⟩
  | cons c rest ih =>
    intro h
    have h1 : (['$', '\x7b'].isPrefixOf (c :: rest)) = false := by
      cases hp : (['$', '\x7b'].isPrefixOf (c :: rest))
      · rfl
      · simp [charsContain, hp] at h
    have h2 : charsContain ['$', '\x7b'] rest = false := by
      cases hp : charsContain ['$', '\x7b'] rest
      · rfl
      · simp [charsContain, hp] at h
    have hrestBrace : c = '$' → rest.head? ≠ some '\x7b' := by
      intro hc hh
      cases rest with
      | nil => simp at hh
      | cons r rs =>
        simp only [List.head?_cons, Option.some.injEq] at hh
        subst hh
        subst hc
        simp [List.isPrefixOf] at h1
    refine ⟨?_, ?_⟩
    · simp only [scanStep]
      by_cases hc : c = '$'
      · rw [if_pos hc]
        exact (ih h2).2 (hrestBrace hc)
      · rw [if_neg hc]
        exact (ih h2).1
    · intro hhead
      have hcb : c ≠ '\x7b' := by
        intro hcontra
        exact hhead (by simp [hcontra])
      simp only [scanStep]
      rw [if_neg hcb]
      by_cases hc : c = '$'
      · rw [if_pos hc]
        exact (ih h2).2 (hrestBrace hc)
      · rw [if_neg hc]
        exact (ih h2).1

/-- Every reference the placeholder scan extracts is non-empty. -/
theorem scan_mem_ne_empty : ∀ (cs : List Char) (st : ScanState), ∀ r ∈ scanStep cs st, r ≠ "" := by
  intro cs
  induction cs with
  | nil => intro st r hr; simp [scanStep] at hr
  | cons c rest ih =>
    intro st r hr
    cases st with
    | plain =>
      simp only [scanStep] at hr
      by_cases hc : c = '$'
      · rw [if_pos hc] at hr; exact ih _ r hr
      · rw [if_neg hc] at hr; exact ih _ r hr
    | dollar =>
      simp only [scanStep] at hr
      by_cases hb : c = '\x7b'
      · rw [if_pos hb] at hr; exact ih _ r hr
      · rw [if_neg hb] at hr
        by_cases hc : c = '$'
        · rw [if_pos hc] at hr; exact ih _ r hr
        · rw [if_neg hc] at hr; exact ih _ r hr
    | ref acc =>
      simp only [scanStep] at hr
      by_cases hd : c = '\x7d'
      · rw [if_pos hd] at hr
        by_cases he : acc.isEmpty
        · rw [if_pos he] at hr; exact ih _ r hr
        · rw [if_neg he] at hr
          rcases List.mem_cons.mp hr with hh | hh
          · subst hh
            have hacc : acc ≠ [] := fun hnil => by simp [hnil] at he
            intro hcontra
            have hd2 : acc.reverse = ([] : List Char) := congrArg String.data hcontra
            exact hacc (by simpa using congrArg List.reverse hd2)
          · exact ih _ r hh
      · rw [if_neg hd] at hr; exact ih _ r hr

/-- Folding the parameter keys over an empty remaining list leaves it empty. -/
theorem mandatory_foldl_nil (ps : List (String × Value)) :
    ps.foldl (fun acc kv => if acc.contains kv.1 then acc.erase kv.1 else acc)
      ([] : List String) = [] := by
  induction ps with
  | nil => rfl
  | cons p ps ih => exact ih

/-- Folding the parameter keys over `["Environment"]` removes it exactly when
some key equals `"Environment"`. -/
theorem mandatory_foldl_env (ps : List (String × Value)) :
    ps.foldl (fun acc kv => if acc.contains kv.1 then acc.erase kv.1 else acc)
      ["Environment"]
    = if (ps.map Prod.fst).contains "Environment" then [] else ["Environment"] := by
  induction ps with
  | nil => rfl
  | cons p ps ih =>
    by_cases hk : p.1 = "Environment"
    · have hstep :
          (if (["Environment"] : List String).contains p.1 then
            (["Environment"] : List String).erase p.1 else ["Environment"]) = [] := by
        rw [hk]; decide
      have hfold := mandatory_foldl_nil ps
      have hcontains : ((p :: ps).map Prod.fst).contains "Environment" = true := by
        rw [List.map_cons, List.contains_cons, hk]
        simp
      rw [List.foldl_cons, hstep, hfold, hcontains, if_pos rfl]
    · have hb : (p.1 == "Environment") = false := beq_eq_false_iff_ne.mpr hk
      have hb' : ("Environment" == p.1) = false := beq_eq_false_iff_ne.mpr (Ne.symm hk)
      have hstep :
          (if (["Environment"] : List String).contains p.1 then
            (["Environment"] : List String).erase p.1 else ["Environment"])
          = ["Environment"] := by
        rw [List.contains_cons, hb]
        rfl
      have hcontains : ((p :: ps).map Prod.fst).contains "Environment"
          = (ps.map Prod.fst).contains "Environment" := by
        rw [List.map_cons, List.contains_cons, hb', Bool.false_or]
      rw [List.foldl_cons, hstep, ih, hcontains]

/-- When every per-resource check succeeds with a pure predicate, the
violation loop returns the filtered, mapped document order. -/
theorem collectViolations_ok_of_pure {check : Value → Except PyErr Bool} {f : Value → Bool}
    {mk : String → RuleMatch} :
    ∀ l : List (String × Value), (∀ kv ∈ l, check kv.2 = .ok (f kv.2)) →
    collectViolations check mk l
      = .ok ((l.filter (fun kv => f kv.2)).map (fun kv => mk kv.1)) := by
  intro l
  induction l with
  | nil => intro _; rfl
  | cons kv rest ih =>
    intro h
    have h1 : check kv.2 = .ok (f kv.2) := h kv (List.mem_cons_self _ _)
    have h2 := ih (fun x hx => h x (List.mem_cons_of_mem _ hx))
    simp only [collectViolations, h1, h2, exceptBind_ok, exceptPure_eq_ok, List.filter_cons]
    cases hf : f kv.2 <;> simp [hf]

/-- Every violation the loop emits is the violation of some listed key. -/
theorem collectViolations_ok_mem {check : Value → Except PyErr Bool}
    {mk : String → RuleMatch} :
    ∀ (l : List (String × Value)) (ms : List RuleMatch),
    collectViolations check mk l = .ok ms →
    ∀ v ∈ ms, ∃ k, k ∈ l.map Prod.fst ∧ v = mk k := by
  intro l
  induction l with
  | nil =>
    intro ms h v hv
    cases h
    simp at hv
  | cons kv rest ih =>
    intro ms h v hv
    simp only [collectViolations] at h
    cases hc : check kv.2 with
    | error e => rw [hc] at h; simp at h
    | ok b =>
      rw [hc] at h
      cases hr : collectViolations check mk rest with
      | error e => rw [hr] at h; simp at h
      | ok ms' =>
        rw [hr] at h
        simp only [exceptBind_ok, exceptPure_eq_ok, Except.ok.injEq] at h
        subst h
        cases b with
        | true =>
          rcases List.mem_cons.mp hv with hh | hh
          · exact ⟨kv.1, by simp, hh⟩
          · rcases ih ms' hr v hh with ⟨k, hk, hvk⟩
            exact ⟨k, by simp [hk], hvk⟩
        | false =>
          rcases ih ms' hr v hv with ⟨k, hk, hvk⟩
          exact ⟨k, by simp [hk], hvk⟩

/-- A listed key whose check flags it is counted exactly once in the output,
provided the keys are distinct. -/
theorem collectViolations_count_one {check : Value → Except PyErr Bool}
    {mk : String → RuleMatch} {f : String} {r : Value} :
    ∀ (l : List (String × Value)) (ms : List RuleMatch),
    (l.map Prod.fst).Nodup → (f, r) ∈ l → check r = .ok true →
    (∀ k, mk k = mk f → k = f) →
    collectViolations check mk l = .ok ms → ms.count (mk f) = 1 := by
  intro l
  induction l with
  | nil => intro ms _ hmem; simp at hmem
  | cons kv rest ih =>
    intro ms hnd hmem hcheck hinj h
    simp only [collectViolations] at h
    cases hc : check kv.2 with
    | error e => rw [hc] at h; simp at h
    | ok b =>
      rw [hc] at h
      cases hr : collectViolations check mk rest with
      | error e => rw [hr] at h; simp at h
      | ok ms' =>
        rw [hr] at h
        simp only [exceptBind_ok, exceptPure_eq_ok, Except.ok.injEq] at h
        subst h
        simp only [List.map_cons, List.nodup_cons] at hnd
        rcases List.mem_cons.mp hmem with hh | hh
        · -- the flagged entry is the head
          have hk : kv = (f, r) := hh.symm
          subst hk
          have hc' : check r = Except.ok b := hc
          rw [hcheck] at hc'
          have hb : b = true := (Except.ok.inj hc').symm
          subst hb
          have hnot : ¬ (mk f) ∈ ms' := by
            intro hin
            rcases collectViolations_ok_mem rest ms' hr _ hin with ⟨k, hkmem, hvk⟩
            have : k = f := hinj k hvk.symm
            subst this
            exact hnd.1 hkmem
          simp [List.count_cons, List.count_eq_zero.mpr hnot]
        · -- the flagged entry is in the tail
          have hcount := ih ms' hnd.2 hh hcheck hinj hr
          cases b with
          | true =>
            have hne : kv.1 ≠ f := by
              intro hcontra
              apply hnd.1
              rw [hcontra]
              exact List.mem_map_of_mem Prod.fst hh
            have hne' : mk f ≠ mk kv.1 := fun hcontra => hne (hinj kv.1 hcontra.symm)
            rw [if_pos rfl, List.count_cons_of_ne hne', hcount]
          | false =>
            rw [if_neg (by simp)]
            exact hcount

/-- A function resource with no `Properties` object or no `Layers` key is
flagged by the E9005 check. -/
theorem insightsLayerMissing_of_noLayers (v : Value) (h : noLayersKey v = true) :
    insightsLayerMissing v = .ok true := by
  cases v with
  | obj kvs =>
    have h' : (match alookup kvs "Properties" with
        | none => true
        | some (Value.obj pkvs) => (alookup pkvs "Layers").isNone
        | some _ => false) = true := h
    cases hp : alookup kvs "Properties" with
    | none =>
      simp only [insightsLayerMissing, pyGetD, hp, Option.getD_none, exceptBind_ok]
      rfl
    | some w =>
      rw [hp] at h'
      cases w with
      | obj pkvs =>
        have hl : alookup pkvs "Layers" = none := Option.isNone_iff_eq_none.mp h'
        simp only [insightsLayerMissing, pyGetD, hp, Option.getD_some, hl, Option.getD_none,
          exceptBind_ok]
        rfl
      | null => simp at h'
      | str s => simp at h'
      | int n => simp at h'
      | bool b => simp at h'
      | list xs => simp at h'
  | null => simp [noLayersKey] at h
  | str s => simp [noLayersKey] at h
  | int n => simp [noLayersKey] at h
  | bool b => simp [noLayersKey] at h
  | list xs => simp [noLayersKey] at h

/-- E9006's per-function check raises `KeyError` when the companion role is
absent. -/
theorem insightsPermissionMissing_absent (roles : List (String × Value)) (f : String)
    (hr : alookup roles (f ++ "Role") = none) :
    insightsPermissionMissing roles f = .error .keyError := by
  simp only [insightsPermissionMissing, hr, exceptBind_err]

/-- E9006's per-function check on a present, benign companion role decides
exactly the managed-policy membership. -/
theorem insightsPermissionMissing_present (roles : List (String × Value)) (f : String)
    (role : Value) (hr : alookup roles (f ++ "Role") = some role)
    (hb : iamRoleBenign role = true) :
    insightsPermissionMissing roles f = .ok (!roleHasInsightsPolicy roles f) := by
  cases role with
  | obj kvs =>
    have hb' : (match alookup kvs "Properties" with
        | none => true
        | some (Value.obj pkvs) =>
          match alookup pkvs "ManagedPolicyArns" with
          | none => true
          | some (.list _) => true
          | some _ => false
        | some _ => false) = true := hb
    cases hp : alookup kvs "Properties" with
    | none =>
      have hrhs : roleHasInsightsPolicy roles f = false := by
        simp only [roleHasInsightsPolicy, hr, objLookup, hp]
      rw [hrhs]
      simp only [insightsPermissionMissing, hr, exceptBind_ok, pyGetD, hp, Option.getD_none]
      rfl
    | some w =>
      rw [hp] at hb'
      cases w with
      | obj pkvs =>
        have hb'' : (match alookup pkvs "ManagedPolicyArns" with
            | none => true
            | some (.list _) => true
            | some _ => false) = true := hb'
        cases ha : alookup pkvs "ManagedPolicyArns" with
        | none =>
          have hrhs : roleHasInsightsPolicy roles f = false := by
            simp only [roleHasInsightsPolicy, hr, objLookup, hp, ha]
          rw [hrhs]
          simp only [insightsPermissionMissing, hr, exceptBind_ok, pyGetD, hp, Option.getD_some,
            ha, Option.getD_none]
          rfl
        | some u =>
          rw [ha] at hb''
          cases u with
          | list xs =>
            have hrhs : roleHasInsightsPolicy roles f
                = xs.any (fun x => isStrEq x insightsPolicyArn) := by
              simp only [roleHasInsightsPolicy, hr, objLookup, hp, ha]
            rw [hrhs]
            simp only [insightsPermissionMissing, hr, exceptBind_ok, pyGetD, hp, Option.getD_some,
              ha]
            rfl
          | null => simp at hb''
          | str s => simp at hb''
          | int n => simp at hb''
          | bool b => simp at hb''
          | obj o => simp at hb''
      | null => simp at hb'
      | str s => simp at hb'
      | int n => simp at hb'
      | bool b => simp at hb'
      | list xs => simp at hb'
  | null => simp [iamRoleBenign] at hb
  | str s => simp [iamRoleBenign] at hb
  | int n => simp [iamRoleBenign] at hb
  | bool b => simp [iamRoleBenign] at hb
  | list xs => simp [iamRoleBenign] at hb

/-- With benign roles, the E9006 loop over function names whose companion
roles all exist returns the filtered violations. -/
theorem insightsPermissionGo_ok (roles : List (String × Value))
    (hb : roles.all (fun kv => iamRoleBenign kv.2) = true) :
    ∀ fs : List String, (∀ f ∈ fs, (alookup roles (f ++ "Role")).isSome = true) →
    insightsPermissionGo roles fs
      = .ok ((fs.filter (fun f => !roleHasInsightsPolicy roles f)).map e9006Violation) := by
  intro fs
  induction fs with
  | nil => intro _; rfl
  | cons f rest ih =>
    intro hall
    have hf := hall f (List.mem_cons_self _ _)
    obtain ⟨role, hrole⟩ := Option.isSome_iff_exists.mp hf
    have hbrole : iamRoleBenign role = true := by
      rcases exists_mem_of_alookup roles _ role hrole with ⟨k', hk'⟩
      exact List.all_eq_true.mp hb ⟨k', role⟩ hk'
    have hrest := ih (fun g hg => hall g (List.mem_cons_of_mem _ hg))
    simp only [insightsPermissionGo,
      insightsPermissionMissing_present roles f role hrole hbrole, exceptBind_ok, hrest,
      exceptPure_eq_ok, List.filter_cons]
    cases hq : roleHasInsightsPolicy roles f <;> simp [hq]

/-- With benign roles, the E9006 loop raises `KeyError` as soon as some
listed function's companion role is absent. -/
theorem insightsPermissionGo_err (roles : List (String × Value))
    (hb : roles.all (fun kv => iamRoleBenign kv.2) = true) :
    ∀ fs : List String, (∃ f ∈ fs, alookup roles (f ++ "Role") = none) →
    insightsPermissionGo roles fs = .error .keyError := by
  intro fs
  induction fs with
  | nil =>
    intro h
    rcases h with ⟨f, hf, _⟩
    simp at hf
  | cons f rest ih =>
    intro h
    rcases h with ⟨g, hg, hnone⟩
    cases hr : alookup roles (f ++ "Role") with
    | none =>
      simp only [insightsPermissionGo, insightsPermissionMissing_absent roles f hr, exceptBind_err]
    | some role =>
      have hbrole : iamRoleBenign role = true := by
        rcases exists_mem_of_alookup roles _ role hr with ⟨k', hk'⟩
        exact List.all_eq_true.mp hb ⟨k', role⟩ hk'
      have hgr : g ∈ rest := by
        rcases List.mem_cons.mp hg with hh | hh
        · subst hh
          rw [hr] at hnone
          simp at hnone
        · exact hh
      have hrec := ih ⟨g, hgr, hnone⟩
      simp only [insightsPermissionGo,
        insightsPermissionMissing_present roles f role hr hbrole, exceptBind_ok, hrec,
        exceptBind_err]

/-- On a benign `Action` shape, the Python `in` test agrees with the action
predicate. -/
theorem stmtActionContains (kvs : List (String × Value))
    (hbA : (match alookup kvs "Action" with
      | none => true
      | some (.str _) => true
      | some (.list _) => true
      | some (.obj _) => true
      | some _ => false) = true) :
    pyContains "events:PutEvents" ((alookup kvs "Action").getD (.obj []))
      = .ok (stmtActionMatches (.obj kvs)) := by
  cases ha : alookup kvs "Action" with
  | none =>
    simp only [ha, Option.getD_none, stmtActionMatches, objLookup]
    rfl
  | some a =>
    rw [ha] at hbA
    cases a with
    | str s =>
      simp only [ha, Option.getD_some, stmtActionMatches, objLookup]
      rfl
    | list xs =>
      simp only [ha, Option.getD_some, stmtActionMatches, objLookup]
      rfl
    | obj okvs =>
      simp only [ha, Option.getD_some, stmtActionMatches, objLookup]
      rfl
    | null => simp at hbA
    | int n => simp at hbA
    | bool b => simp at hbA

/-- On a benign `Condition` shape, the condition lookup chain succeeds and
produces the statement's `events:source` value. -/
theorem stmtCondChain (kvs : List (String × Value))
    (hbC : (match alookup kvs "Condition" with
      | none => true
      | some (.obj ckvs) =>
        match alookup ckvs "StringEquals" with
        | none => true
        | some (.obj _) => true
        | some _ => false
      | some _ => false) = true) :
    ∃ condV seV, pyGetD (Value.obj kvs) "Condition" (.obj []) = .ok condV
      ∧ pyGetD condV "StringEquals" (.obj []) = .ok seV
      ∧ pyGetD seV "events:source" .null = .ok (stmtSourceCondition (.obj kvs)) := by
  cases hc : alookup kvs "Condition" with
  | none =>
    refine ⟨.obj [], .obj [], ?_, rfl, ?_⟩
    · simp only [pyGetD, hc, Option.getD_none]
    · simp only [stmtSourceCondition, objLookup, hc]
      rfl
  | some c =>
    rw [hc] at hbC
    cases c with
    | obj ckvs =>
      have hbC' : (match alookup ckvs "StringEquals" with
          | none => true
          | some (.obj _) => true
          | some _ => false) = true := hbC
      cases hse : alookup ckvs "StringEquals" with
      | none =>
        refine ⟨.obj ckvs, .obj [], ?_, ?_, ?_⟩
        · simp only [pyGetD, hc, Option.getD_some]
        · simp only [pyGetD, hse, Option.getD_none]
        · simp only [stmtSourceCondition, objLookup, hc, hse]
          rfl
      | some se =>
        rw [hse] at hbC'
        cases se with
        | obj sekvs =>
          refine ⟨.obj ckvs, .obj sekvs, ?_, ?_, ?_⟩
          · simp only [pyGetD, hc, Option.getD_some]
          · simp only [pyGetD, hse, Option.getD_some]
          · simp only [pyGetD, stmtSourceCondition, objLookup, hc, hse]
        | null => simp at hbC'
        | str s => simp at hbC'
        | int n => simp at hbC'
        | bool b => simp at hbC'
        | list xs => simp at hbC'
    | null => simp at hbC
    | str s => simp at hbC
    | int n => simp at hbC
    | bool b => simp at hbC
    | list xs => simp at hbC

/-- On benign statements, `_match_policy`'s statement loop decides exactly
whether some statement qualifies. -/
theorem matchStatements_benign : ∀ sts : List Value, sts.all stmtBenign = true →
    matchStatements sts = .ok (sts.any stmtQualifies) := by
  intro sts
  induction sts with
  | nil => intro _; rfl
  | cons st rest ih =>
    intro hall
    rw [List.all_cons, Bool.and_eq_true] at hall
    obtain ⟨hst, hrest⟩ := hall
    have hrec := ih hrest
    cases st with
    | obj kvs =>
      have hsplit : ((match alookup kvs "Action" with
          | none => true
          | some (.str _) => true
          | some (.list _) => true
          | some (.obj _) => true
          | some _ => false) &&
          (match alookup kvs "Condition" with
          | none => true
          | some (.obj ckvs) =>
            match alookup ckvs "StringEquals" with
            | none => true
            | some (.obj _) => true
            | some _ => false
          | some _ => false)) = true := hst
      rw [Bool.and_eq_true] at hsplit
      obtain ⟨hbA, hbC⟩ := hsplit
      obtain ⟨condV, seV, hC, hSE, hsrc⟩ := stmtCondChain kvs hbC
      have hA := stmtActionContains kvs hbA
      have hget : pyGetD (Value.obj kvs) "Action" (.obj [])
          = .ok ((alookup kvs "Action").getD (.obj [])) := rfl
      simp only [matchStatements, hget, exceptBind_ok, hA, hC, hSE, hsrc, hrec,
        exceptPure_eq_ok, List.any_cons, stmtQualifies]
      cases hq : stmtActionMatches (Value.obj kvs) with
      | false => simp
      | true =>
        simp only [if_pos rfl, Bool.true_and]
        cases ht : pyTruthy (stmtSourceCondition (Value.obj kvs)) with
        | false => simp
        | true => simp
    | null => simp [stmtBenign] at hst
    | str s => simp [stmtBenign] at hst
    | int n => simp [stmtBenign] at hst
    | bool b => simp [stmtBenign] at hst
    | list xs => simp [stmtBenign] at hst

/-- On a benign policy, `_match_policy` decides exactly whether the policy
qualifies. -/
theorem matchPolicy_benign (p : Value) (hb : policyBenign p = true) :
    matchPolicy p = .ok (policyQualifies p) := by
  cases p with
  | obj kvs =>
    have hb' : (match alookup kvs "PolicyDocument" with
        | none => true
        | some (.obj dkvs) =>
          match alookup dkvs "Statement" with
          | none => true
          | some (.list sts) => sts.all stmtBenign
          | some _ => false
        | some _ => false) = true := hb
    cases hpd : alookup kvs "PolicyDocument" with
    | none =>
      simp only [matchPolicy, pyGetD, hpd, Option.getD_none, exceptBind_ok,
        policyQualifies, objLookup]
      rfl
    | some d =>
      rw [hpd] at hb'
      cases d with
      | obj dkvs =>
        have hb'' : (match alookup dkvs "Statement" with
            | none => true
            | some (.list sts) => sts.all stmtBenign
            | some _ => false) = true := hb'
        cases hst : alookup dkvs "Statement" with
        | none =>
          simp only [matchPolicy, pyGetD, hpd, Option.getD_some, hst, Option.getD_none,
            exceptBind_ok, policyQualifies, objLookup]
          rfl
        | some sv =>
          rw [hst] at hb''
          cases sv with
          | list sts =>
            have hms := matchStatements_benign sts hb''
            simp only [matchPolicy, pyGetD, hpd, Option.getD_some, hst, exceptBind_ok,
              pyIter, hms, policyQualifies, objLookup]
          | null => simp at hb''
          | str s => simp at hb''
          | int n => simp at hb''
          | bool b => simp at hb''
          | obj o => simp at hb''
      | null => simp at hb'
      | str s => simp at hb'
      | int n => simp at hb'
      | bool b => simp at hb'
      | list xs => simp at hb'
  | null => simp [policyBenign] at hb
  | str s => simp [policyBenign] at hb
  | int n => simp [policyBenign] at hb
  | bool b => simp [policyBenign] at hb
  | list xs => simp [policyBenign] at hb

/-- On benign policies, the role's policy loop decides exactly whether some
inline policy qualifies. -/
theorem rolePoliciesFound_benign : ∀ ps : List Value, ps.all policyBenign = true →
    rolePoliciesFound ps = .ok (ps.any policyQualifies) := by
  intro ps
  induction ps with
  | nil => intro _; rfl
  | cons p rest ih =>
    intro hall
    rw [List.all_cons, Bool.and_eq_true] at hall
    obtain ⟨hp, hrest⟩ := hall
    simp only [rolePoliciesFound, matchPolicy_benign p hp, exceptBind_ok, ih hrest,
      exceptPure_eq_ok, List.any_cons]

/-- On a benign role, E9007's per-role test decides exactly whether the role
qualifies. -/
theorem roleFound_benign (v : Value) (hb : e9007RoleBenign v = true) :
    roleFound v = .ok (roleQualifies v) := by
  cases v with
  | obj kvs =>
    have hb' : (match alookup kvs "Properties" with
        | none => true
        | some (.obj pkvs) =>
          match alookup pkvs "Policies" with
          | none => true
          | some (.list ps) => ps.all policyBenign
          | some _ => false
        | some _ => false) = true := hb
    cases hp : alookup kvs "Properties" with
    | none =>
      simp only [roleFound, pyGetD, hp, Option.getD_none, exceptBind_ok, roleQualifies, objLookup]
      rfl
    | some w =>
      rw [hp] at hb'
      cases w with
      | obj pkvs =>
        have hb'' : (match alookup pkvs "Policies" with
            | none => true
            | some (.list ps) => ps.all policyBenign
            | some _ => false) = true := hb'
        cases hpol : alookup pkvs "Policies" with
        | none =>
          simp only [roleFound, pyGetD, hp, Option.getD_some, hpol, Option.getD_none,
            exceptBind_ok, roleQualifies, objLookup]
          rfl
        | some pv =>
          rw [hpol] at hb''
          cases pv with
          | list ps =>
            have hrp := rolePoliciesFound_benign ps hb''
            simp only [roleFound, pyGetD, hp, Option.getD_some, hpol, exceptBind_ok, pyIter,
              hrp, roleQualifies, objLookup]
          | null => simp at hb''
          | str s => simp at hb''
          | int n => simp at hb''
          | bool b => simp at hb''
          | obj o => simp at hb''
      | null => simp at hb'
      | str s => simp at hb'
      | int n => simp at hb'
      | bool b => simp at hb'
      | list xs => simp at hb'
  | null => simp [e9007RoleBenign] at hb
  | str s => simp [e9007RoleBenign] at hb
  | int n => simp [e9007RoleBenign] at hb
  | bool b => simp [e9007RoleBenign] at hb
  | list xs => simp [e9007RoleBenign] at hb

/-- String `==` is symmetric. -/
theorem strBeq_comm (a b : String) : (a == b) = (b == a) := by
  cases h : a == b
  · cases h' : b == a
    · rfl
    · exact absurd (beq_iff_eq.mp h').symm (fun hab => by rw [hab] at h; simp at h)
  · rw [beq_iff_eq.mp h]
    simp

/-- The spec-level covered name of an invoke config is the string payload of
the `Ref` value the code appends. -/
theorem icRef_covered_rel (v : Value) :
    e9004CoveredOf v
      = match icRefOf v with
        | some (.str t) => some t
        | _ => none := by
  cases h1 : objLookup v "Properties" with
  | none => simp [e9004CoveredOf, icRefOf, h1]
  | some props =>
    cases h2 : objLookup props "DestinationConfig" with
    | none => simp [e9004CoveredOf, icRefOf, h1, h2]
    | some dc =>
      cases h3 : objLookup dc "OnFailure" with
      | none => simp [e9004CoveredOf, icRefOf, h1, h2, h3]
      | some onf =>
        cases hnull : isNull onf with
        | true => simp [e9004CoveredOf, icRefOf, h1, h2, h3, hnull]
        | false =>
          cases h4 : objLookup props "FunctionName" with
          | none => simp [e9004CoveredOf, icRefOf, h1, h2, h3, hnull, h4]
          | some fn =>
            cases h5 : objLookup fn "Ref" with
            | none => simp [e9004CoveredOf, icRefOf, h1, h2, h3, hnull, h4, h5]
            | some ref =>
              cases ref <;> simp [e9004CoveredOf, icRefOf, h1, h2, h3, hnull, h4, h5]

/-- Membership of a name among the appended `Ref` values (Python `==` against
a string) agrees with membership in the spec-level covered names. -/
theorem filterMap_any_isStrEq (l : List (String × Value)) (s : String) :
    ((l.filterMap (fun kv => icRefOf kv.2)).any (fun x => isStrEq x s))
      = ((l.filterMap (fun kv => e9004CoveredOf kv.2)).contains s) := by
  induction l with
  | nil => rfl
  | cons kv rest ih =>
    rw [List.filterMap_cons, List.filterMap_cons, icRef_covered_rel kv.2]
    cases hr : icRefOf kv.2 with
    | none => simpa using ih
    | some w =>
      cases w with
      | str t =>
        simp only [List.any_cons, List.contains_cons]
        rw [show isStrEq (Value.str t) s = (t == s) from rfl, ih, strBeq_comm s t]
      | null => simpa using ih
      | int n => simpa using ih
      | bool b => simpa using ih
      | list xs => simpa using ih
      | obj o => simpa using ih

/-- One benign invoke config either contributes its `Ref` payload or is
skipped, without raising. -/
theorem invokeConfigFunctions_cons_benign (k : String) (v : Value)
    (rest : List (String × Value)) (hb : invokeConfigBenign v = true) :
    invokeConfigFunctions ((k, v) :: rest)
      = match icRefOf v with
        | none => invokeConfigFunctions rest
        | some ref => invokeConfigFunctions rest >>= fun fs => .ok (ref :: fs) := by
  cases v with
  | obj kvs =>
    have hb' : (match alookup kvs "Properties" with
        | none => true
        | some (.obj pkvs) =>
          match alookup pkvs "DestinationConfig" with
          | none => true
          | some (.obj dkvs) =>
            match alookup dkvs "OnFailure" with
            | none => true
            | some onf =>
              if isNull onf then true
              else
                match alookup pkvs "FunctionName" with
                | some (.obj fkvs) => (alookup fkvs "Ref").isSome
                | _ => false
          | some _ => false
        | some _ => false) = true := hb
    cases h1 : alookup kvs "Properties" with
    | none =>
      simp only [invokeConfigFunctions, pyGetD, h1, Option.getD_none, exceptBind_ok,
        icRefOf, objLookup]
      rfl
    | some w =>
      rw [h1] at hb'
      cases w with
      | obj pkvs =>
        have hb2 : (match alookup pkvs "DestinationConfig" with
            | none => true
            | some (.obj dkvs) =>
              match alookup dkvs "OnFailure" with
              | none => true
              | some onf =>
                if isNull onf then true
                else
                  match alookup pkvs "FunctionName" with
                  | some (.obj fkvs) => (alookup fkvs "Ref").isSome
                  | _ => false
            | some _ => false) = true := hb'
        cases h2 : alookup pkvs "DestinationConfig" with
        | none =>
          simp only [invokeConfigFunctions, pyGetD, h1, Option.getD_some, h2, Option.getD_none,
            exceptBind_ok, icRefOf, objLookup]
          rfl
        | some u =>
          rw [h2] at hb2
          cases u with
          | obj dkvs =>
            have hb3 : (match alookup dkvs "OnFailure" with
                | none => true
                | some onf =>
                  if isNull onf then true
                  else
                    match alookup pkvs "FunctionName" with
                    | some (.obj fkvs) => (alookup fkvs "Ref").isSome
                    | _ => false) = true := hb2
            cases h3 : alookup dkvs "OnFailure" with
            | none =>
              simp only [invokeConfigFunctions, pyGetD, h1, Option.getD_some, h2, h3,
                Option.getD_none, exceptBind_ok, icRefOf, objLookup]
              rfl
            | some onf =>
              rw [h3] at hb3
              cases hnull : isNull onf with
              | true =>
                simp only [invokeConfigFunctions, pyGetD, h1, Option.getD_some, h2, h3,
                  exceptBind_ok, hnull, icRefOf, objLookup, if_true]
              | false =>
                simp only [hnull, Bool.false_eq_true, if_false] at hb3
                cases h4 : alookup pkvs "FunctionName" with
                | none => rw [h4] at hb3; simp at hb3
                | some fnv =>
                  rw [h4] at hb3
                  cases fnv with
                  | obj fkvs =>
                    have hb4 : (alookup fkvs "Ref").isSome = true := hb3
                    cases h5 : alookup fkvs "Ref" with
                    | none => rw [h5] at hb4; simp at hb4
                    | some ref =>
                      simp only [invokeConfigFunctions, pyGetD, pySubscript, h1,
                        Option.getD_some, h2, h3, exceptBind_ok, hnull, Bool.false_eq_true,
                        if_false, h4, h5, icRefOf, objLookup]
                      rfl
                  | null => simp at hb3
                  | str s => simp at hb3
                  | int n => simp at hb3
                  | bool b => simp at hb3
                  | list xs => simp at hb3
          | null => simp at hb2
          | str s => simp at hb2
          | int n => simp at hb2
          | bool b => simp at hb2
          | list xs => simp at hb2
      | null => simp at hb'
      | str s => simp at hb'
      | int n => simp at hb'
      | bool b => simp at hb'
      | list xs => simp at hb'
  | null => simp [invokeConfigBenign] at hb
  | str s => simp [invokeConfigBenign] at hb
  | int n => simp [invokeConfigBenign] at hb
  | bool b => simp [invokeConfigBenign] at hb
  | list xs => simp [invokeConfigBenign] at hb

/-- On benign invoke configs, `invoke_config_functions` collects exactly the
`Ref` payloads in document order. -/
theorem invokeConfigFunctions_benign :
    ∀ l : List (String × Value), l.all (fun kv => invokeConfigBenign kv.2) = true →
    invokeConfigFunctions l = .ok (l.filterMap (fun kv => icRefOf kv.2)) := by
  intro l
  induction l with
  | nil => intro _; rfl
  | cons kv rest ih =>
    intro hall
    rw [List.all_cons, Bool.and_eq_true] at hall
    obtain ⟨hkv, hrest⟩ := hall
    obtain ⟨k, v⟩ := kv
    rw [invokeConfigFunctions_cons_benign k v rest hkv, ih hrest, List.filterMap_cons]
    cases hr : icRefOf v with
    | none => rfl
    | some ref => rfl

/-- On a benign target, the per-target test decides exactly the spec-level
qualification predicate. -/
theorem ruleTargetFlagged_benign (fns : List String) (invokeFns : List Value)
    (cov : List String) (t : Value) (hb : targetBenign t = true)
    (hcov : ∀ s, (invokeFns.any (fun x => isStrEq x s)) = cov.contains s) :
    ruleTargetFlagged fns invokeFns t = .ok (e9004TargetQualifies fns cov t) := by
  cases t with
  | obj tkvs =>
    have hb' : (match alookup tkvs "Arn" with
        | none => true
        | some (.obj akvs) =>
          match alookup akvs "Fn::GetAtt" with
          | none => true
          | some .null => true
          | some (.list (_ :: _)) => true
          | some _ => false
        | some _ => false) = true := hb
    cases h1 : alookup tkvs "Arn" with
    | none =>
      simp only [ruleTargetFlagged, pyGetD, h1, Option.getD_none, exceptBind_ok,
        e9004TargetQualifies, objLookup]
      rfl
    | some w =>
      rw [h1] at hb'
      cases w with
      | obj akvs =>
        have hb2 : (match alookup akvs "Fn::GetAtt" with
            | none => true
            | some .null => true
            | some (.list (_ :: _)) => true
            | some _ => false) = true := hb'
        cases h2 : alookup akvs "Fn::GetAtt" with
        | none =>
          simp only [ruleTargetFlagged, pyGetD, h1, Option.getD_some, h2, Option.getD_none,
            exceptBind_ok, e9004TargetQualifies, objLookup]
          rfl
        | some g =>
          rw [h2] at hb2
          cases g with
          | null =>
            simp only [ruleTargetFlagged, pyGetD, h1, Option.getD_some, h2, exceptBind_ok,
              e9004TargetQualifies, objLookup]
            rfl
          | list gs =>
            cases gs with
            | nil => simp at hb2
            | cons x xs =>
              simp only [ruleTargetFlagged, pyGetD, pySubscript, pyIndexZero, h1,
                Option.getD_some, h2, exceptBind_ok, e9004TargetQualifies, objLookup]
              cases x with
              | str s =>
                simp only [valueInStrings, isNull]
                cases hf : fns.contains s with
                | false => simp [hf]
                | true =>
                  simp only [hf, Bool.not_true, Bool.false_eq_true, if_false,
                    Bool.true_and]
                  rw [hcov s]
                  rfl
              | null => rfl
              | int n => rfl
              | bool b => rfl
              | list ys => rfl
              | obj o => rfl
          | str s => simp at hb2
          | int n => simp at hb2
          | bool b => simp at hb2
          | obj o => simp at hb2
      | null => simp at hb'
      | str s => simp at hb'
      | int n => simp at hb'
      | bool b => simp at hb'
      | list xs => simp at hb'
  | null => simp [targetBenign] at hb
  | str s => simp [targetBenign] at hb
  | int n => simp [targetBenign] at hb
  | bool b => simp [targetBenign] at hb
  | list xs => simp [targetBenign] at hb

/-- On benign targets, the inner E9004 loop flags one violation per
qualifying target. -/
theorem ruleTargetsGo_benign (fns : List String) (invokeFns : List Value)
    (cov : List String) (k : String)
    (hcov : ∀ s, (invokeFns.any (fun x => isStrEq x s)) = cov.contains s) :
    ∀ ts : List Value, ts.all targetBenign = true →
    ruleTargetsGo fns invokeFns k ts
      = .ok ((ts.filter (e9004TargetQualifies fns cov)).map (fun _ => e9004Violation k)) := by
  intro ts
  induction ts with
  | nil => intro _; rfl
  | cons t rest ih =>
    intro hall
    rw [List.all_cons, Bool.and_eq_true] at hall
    obtain ⟨ht, hrest⟩ := hall
    simp only [ruleTargetsGo, ruleTargetFlagged_benign fns invokeFns cov t ht hcov,
      exceptBind_ok, ih hrest, exceptPure_eq_ok, List.filter_cons]
    cases hq : e9004TargetQualifies fns cov t <;> simp [hq]

/-- On benign rules and targets, the outer E9004 loop concatenates the
per-rule violations in document order. -/
theorem eventsRulesGo_benign (fns : List String) (invokeFns : List Value)
    (cov : List String)
    (hcov : ∀ s, (invokeFns.any (fun x => isStrEq x s)) = cov.contains s) :
    ∀ rl : List (String × Value), rl.all (fun kv => eventsRuleBenign kv.2) = true →
    eventsRulesGo fns invokeFns rl
      = .ok (rl.flatMap (fun kv =>
          ((targetsOf kv.2).filter (e9004TargetQualifies fns cov)).map
            (fun _ => e9004Violation kv.1))) := by
  intro rl
  induction rl with
  | nil => intro _; rfl
  | cons kv rest ih =>
    intro hall
    rw [List.all_cons, Bool.and_eq_true] at hall
    obtain ⟨hkv, hrest⟩ := hall
    obtain ⟨k, v⟩ := kv
    cases v with
    | obj kvs =>
      have hb' : (match alookup kvs "Properties" with
          | none => true
          | some (.obj pkvs) =>
            match alookup pkvs "Targets" with
            | none => true
            | some (.list ts) => ts.all targetBenign
            | some _ => false
          | some _ => false) = true := hkv
      cases h1 : alookup kvs "Properties" with
      | none =>
        simp only [eventsRulesGo, pyGetD, h1, Option.getD_none, exceptBind_ok, pyIter,
          ruleTargetsGo, ih hrest, exceptPure_eq_ok, List.flatMap_cons, targetsOf, objLookup]
        rfl
      | some w =>
        rw [h1] at hb'
        cases w with
        | obj pkvs =>
          have hb2 : (match alookup pkvs "Targets" with
              | none => true
              | some (.list ts) => ts.all targetBenign
              | some _ => false) = true := hb'
          cases h2 : alookup pkvs "Targets" with
          | none =>
            simp only [eventsRulesGo, pyGetD, h1, Option.getD_some, h2, Option.getD_none,
              exceptBind_ok, pyIter, ruleTargetsGo, ih hrest, exceptPure_eq_ok,
              List.flatMap_cons, targetsOf, objLookup]
            rfl
          | some tv =>
            rw [h2] at hb2
            cases tv with
            | list ts =>
              simp only [eventsRulesGo, pyGetD, h1, Option.getD_some, h2, exceptBind_ok,
                pyIter, ruleTargetsGo_benign fns invokeFns cov k hcov ts hb2, ih hrest,
                exceptPure_eq_ok, List.flatMap_cons, targetsOf, objLookup]
            | null => simp at hb2
            | str s => simp at hb2
            | int n => simp at hb2
            | bool b => simp at hb2
            | obj o => simp at hb2
        | null => simp at hb'
        | str s => simp at hb'
        | int n => simp at hb'
        | bool b => simp at hb'
        | list xs => simp at hb'
    | null => simp [eventsRuleBenign] at hkv
    | str s => simp [eventsRuleBenign] at hkv
    | int n => simp [eventsRuleBenign] at hkv
    | bool b => simp [eventsRuleBenign] at hkv
    | list xs => simp [eventsRuleBenign] at hkv

/-- On a benign log group, one E9002 scan iteration contributes exactly the
first embedded reference of its name interpolation, if any. -/
theorem logGroupKnownStep_benign (v : Value) (hb : logGroupBenign v = true) :
    logGroupKnownStep v = .ok (e9002CoveredOf v) := by
  cases v with
  | obj kvs =>
    have hb' : (match alookup kvs "Properties" with
        | some (.obj pkvs) =>
          match alookup pkvs "LogGroupName" with
          | some (.obj lkvs) =>
            match alookup lkvs "Fn::Sub" with
            | some (.str _) => true
            | some _ => false
            | none => true
          | some _ => true
          | none => true
        | _ => false) = true := hb
    cases hp : alookup kvs "Properties" with
    | none => rw [hp] at hb'; simp at hb'
    | some props =>
      rw [hp] at hb'
      cases props with
      | obj pkvs =>
        have hany := alookup_isSome_eq_any pkvs "LogGroupName"
        cases hl : alookup pkvs "LogGroupName" with
        | none =>
          rw [hl] at hany
          simp only [Option.isSome_none] at hany
          simp [logGroupKnownStep, pyGet, pyContains, hp, hl, ← hany,
            e9002CoveredOf, logGroupSubTemplate, objLookup]
        | some w =>
          rw [hl] at hany
          simp only [Option.isSome_some] at hany
          have hb2 : (match alookup pkvs "LogGroupName" with
              | some (.obj lkvs) =>
                match alookup lkvs "Fn::Sub" with
                | some (.str _) => true
                | some _ => false
                | none => true
              | some _ => true
              | none => true) = true := hb'
          rw [hl] at hb2
          cases w with
          | obj lkvs =>
            have hany2 := alookup_isSome_eq_any lkvs "Fn::Sub"
            cases hsub : alookup lkvs "Fn::Sub" with
            | none =>
              rw [hsub] at hany2
              simp only [Option.isSome_none] at hany2
              simp [logGroupKnownStep, pyGet, pyContains, hp, hl, hsub, ← hany, ← hany2,
                e9002CoveredOf, logGroupSubTemplate, objLookup]
            | some u =>
              rw [hsub] at hany2
              simp only [Option.isSome_some] at hany2
              have hb3 : (match alookup lkvs "Fn::Sub" with
                  | some (.str _) => true
                  | some _ => false
                  | none => true) = true := hb2
              rw [hsub] at hb3
              cases u with
              | str s =>
                simp [logGroupKnownStep, pyGet, pyContains, pySubscript, hp, hl, hsub,
                  ← hany, ← hany2, e9002CoveredOf, logGroupSubTemplate, objLookup]
              | null => simp at hb3
              | int n => simp at hb3
              | bool b => simp at hb3
              | list xs => simp at hb3
              | obj o => simp at hb3
          | null =>
            simp [logGroupKnownStep, pyGet, pyContains, hp, hl, ← hany,
              e9002CoveredOf, logGroupSubTemplate, objLookup]
          | str s =>
            simp [logGroupKnownStep, pyGet, pyContains, hp, hl, ← hany,
              e9002CoveredOf, logGroupSubTemplate, objLookup]
          | int n =>
            simp [logGroupKnownStep, pyGet, pyContains, hp, hl, ← hany,
              e9002CoveredOf, logGroupSubTemplate, objLookup]
          | bool b =>
            simp [logGroupKnownStep, pyGet, pyContains, hp, hl, ← hany,
              e9002CoveredOf, logGroupSubTemplate, objLookup]
          | list xs =>
            simp [logGroupKnownStep, pyGet, pyContains, hp, hl, ← hany,
              e9002CoveredOf, logGroupSubTemplate, objLookup]
      | null => simp at hb'
      | str s => simp at hb'
      | int n => simp at hb'
      | bool b => simp at hb'
      | list xs => simp at hb'
  | null => simp [logGroupBenign] at hb
  | str s => simp [logGroupBenign] at hb
  | int n => simp [logGroupBenign] at hb
  | bool b => simp [logGroupBenign] at hb
  | list xs => simp [logGroupBenign] at hb

/-- On benign log groups, the E9002 scan collects exactly the first embedded
references, in document order. -/
theorem logGroupKnown_benign :
    ∀ l : List (String × Value), l.all (fun kv => logGroupBenign kv.2) = true →
    logGroupKnown l = .ok (l.filterMap (fun kv => e9002CoveredOf kv.2)) := by
  intro l
  induction l with
  | nil => intro _; rfl
  | cons kv rest ih =>
    intro hall
    rw [List.all_cons, Bool.and_eq_true] at hall
    obtain ⟨hkv, hrest⟩ := hall
    simp only [logGroupKnown, logGroupKnownStep_benign kv.2 hkv, exceptBind_ok, ih hrest,
      exceptPure_eq_ok, List.filterMap_cons]
    cases ho : e9002CoveredOf kv.2 <;> simp [ho]

/-! ### Claim theorems -/

/-- C3 (code bug evidence): on a function or log-group resource that has a
`Type` but no `Properties` key, the runtime rule E9001 raises
`AttributeError` (`None.get("Runtime")`) and the log-group rule E9002 raises
`TypeError` (`"LogGroupName" not in None`), instead of treating the missing
property as absent as the spec requires. -/
theorem c3_shape_mismatch_raises :
    python39Match c3FnTemplate = .error .attributeError
    ∧ lambdaLogGroupMatch c3LgTemplate = .error .typeError :=
  ⟨rfl, rfl⟩

/-- C4: interpolation scanning extracts nothing from a string with no
placeholder opener, nothing from the malformed `"$\x7bunterminated"`, and
never extracts an empty placeholder. -/
theorem c4_interpolation_scanning :
    (∀ s : String, strContains s "$\x7b" = false →
      extractInterpolationRefs s = [] ∧ searchInterpolationRef s = none)
    ∧ (extractInterpolationRefs "$\x7bunterminated" = []
        ∧ searchInterpolationRef "$\x7bunterminated" = none)
    ∧ (∀ (s r : String), r ∈ extractInterpolationRefs s → r ≠ "") := by
  refine ⟨?_, ⟨rfl, rfl⟩, ?_⟩
  · intro s h
    have h' : charsContain ['$', '\x7b'] s.data = false := h
    have hscan := scan_no_opener s.data h'
    refine ⟨hscan.1, ?_⟩
    unfold searchInterpolationRef
    rw [show extractInterpolationRefs s = [] from hscan.1]
    rfl
  · intro s r hr
    exact scan_mem_ne_empty s.data .plain r hr

/-- C4 witness: the theorem applied to the concrete string `"hello"`. -/
theorem c4_witness :
    extractInterpolationRefs "hello" = [] ∧ searchInterpolationRef "hello" = none :=
  c4_interpolation_scanning.1 "hello" rfl

/-- C7: the mandatory-parameters rule E9000 yields exactly one violation for
the fixed required name `"Environment"` when it is not a key of the
Parameters section and none when it is; in particular one violation on empty
Parameters and zero when `Environment` is present. -/
theorem c7_mandatory_parameters :
    (∀ cfn : Template,
      (mandatoryParametersMatch mandatoryParametersList cfn).2
        = if ((getParameters cfn).map Prod.fst).contains "Environment" then []
          else [⟨["Parameters"], "Missing parameter \x27Environment\x27"⟩])
    ∧ (mandatoryParametersMatch mandatoryParametersList emptyParamsTemplate).2
        = [⟨["Parameters"], "Missing parameter \x27Environment\x27"⟩]
    ∧ (mandatoryParametersMatch mandatoryParametersList envParamsTemplate).2 = [] := by
  refine ⟨?_, rfl, rfl⟩
  intro cfn
  simp only [mandatoryParametersMatch, mandatoryParametersList]
  rw [mandatory_foldl_env]
  cases h : ((getParameters cfn).map Prod.fst).contains "Environment"
  · rw [if_neg (by simp [h]), if_neg (by simp [h])]
    rfl
  · rw [if_pos (by simp [h]), if_pos (by simp [h])]
    rfl

/-- C8: a second engine run on the same immutable template returns the same
state and the identical ordered violation sequence — no rule carries mutable
state across runs, and E9000 leaves its stored required-name list unchanged
(it consumes a deep copy). -/
theorem c8_engine_idempotent :
    ∀ cfn : Template,
      (runEngine initialEngineState cfn).1 = initialEngineState
      ∧ runEngine ((runEngine initialEngineState cfn).1) cfn = runEngine initialEngineState cfn
      ∧ (∀ mp : List String, (mandatoryParametersMatch mp cfn).1 = mp) :=
  fun _ => ⟨rfl, rfl, fun _ => rfl⟩

/-- C10: E9007's action test on a scalar string is substring containment —
any action string merely containing `"events:PutEvents"` qualifies — while on
a list only an element exactly equal to `"events:PutEvents"` qualifies. -/
theorem c10_action_containment :
    (∀ s : String,
      matchStatements [Value.obj [("Action", Value.str s)]]
        = .ok (strContains s "events:PutEvents"))
    ∧ (∀ xs : List Value,
      matchStatements [Value.obj [("Action", Value.list xs)]]
        = .ok (xs.any (fun x => match x with | .str t => t == "events:PutEvents" | _ => false)))
    ∧ matchPolicy c10ScalarPolicy = .ok true
    ∧ matchPolicy c10ListPolicy = .ok false := by
  refine ⟨?_, ?_, rfl, rfl⟩
  · intro s
    show (if strContains s "events:PutEvents" then (Except.ok true : Except PyErr Bool)
          else Except.ok false)
        = Except.ok (strContains s "events:PutEvents")
    cases h : strContains s "events:PutEvents" <;> simp [h]
  · intro xs
    show (if xs.any (fun x => match x with | .str t => t == "events:PutEvents" | _ => false)
            then (Except.ok true : Except PyErr Bool) else Except.ok false)
        = Except.ok (xs.any (fun x => match x with | .str t => t == "events:PutEvents" | _ => false))
    cases h : xs.any (fun x => match x with | .str t => t == "events:PutEvents" | _ => false) <;>
      simp [h]

/-- C5: for a template whose IAM roles are well-shaped, E9006 raises the
`KeyError` (NotFound-class, surfaced) exactly when some Lambda function's
convention-named companion role (function name + `"Role"`) is absent from the
IAM roles; when every companion role exists it yields exactly one violation
per function whose role's `ManagedPolicyArns` list lacks the Insights policy
ARN, and none for functions whose role contains it. -/
theorem c5_insights_permission :
    ∀ cfn : Template,
      (getResources cfn "AWS::IAM::Role").all (fun kv => iamRoleBenign kv.2) = true →
      ((∀ f ∈ (getResources cfn "AWS::Lambda::Function").map Prod.fst,
          (alookup (getResources cfn "AWS::IAM::Role") (f ++ "Role")).isSome = true) →
        lambdaInsightsPermissionMatch cfn
          = .ok ((((getResources cfn "AWS::Lambda::Function").map Prod.fst).filter
              (fun f => !roleHasInsightsPolicy (getResources cfn "AWS::IAM::Role") f)).map
              e9006Violation))
      ∧ ((∃ f ∈ (getResources cfn "AWS::Lambda::Function").map Prod.fst,
          alookup (getResources cfn "AWS::IAM::Role") (f ++ "Role") = none) →
        lambdaInsightsPermissionMatch cfn = .error .keyError) := by
  intro cfn hb
  constructor
  · intro hall
    exact insightsPermissionGo_ok (getResources cfn "AWS::IAM::Role") hb
      ((getResources cfn "AWS::Lambda::Function").map Prod.fst) hall
  · intro hex
    exact insightsPermissionGo_err (getResources cfn "AWS::IAM::Role") hb
      ((getResources cfn "AWS::Lambda::Function").map Prod.fst) hex

/-- C5 witness: the theorem applied to a template where function `F`'s
companion role `FRole` exists and carries the Insights policy. -/
theorem c5_witness :
    lambdaInsightsPermissionMatch c5Template
      = .ok ((((getResources c5Template "AWS::Lambda::Function").map Prod.fst).filter
          (fun f => !roleHasInsightsPolicy (getResources c5Template "AWS::IAM::Role") f)).map
          e9006Violation) :=
  (c5_insights_permission c5Template rfl).1
    (by
      intro f hf
      have he : (getResources c5Template "AWS::Lambda::Function").map Prod.fst = ["F"] := rfl
      rw [he] at hf
      rw [List.mem_singleton.mp hf]
      decide)

/-- C9: a Lambda function resource with no `Properties` object or no `Layers`
key receives exactly one E9005 violation — its absent layer list is the empty
list, which cannot contain the Insights layer ARN pattern. -/
theorem c9_absent_layers_flagged :
    ∀ (cfn : Template) (f : String) (r : Value) (ms : List RuleMatch),
      ((getResources cfn "AWS::Lambda::Function").map Prod.fst).Nodup →
      (f, r) ∈ getResources cfn "AWS::Lambda::Function" →
      noLayersKey r = true →
      lambdaInsightsLayerMatch cfn = .ok ms →
      ms.count (e9005Violation f) = 1 := by
  intro cfn f r ms hnd hmem hnl hok
  have hok' : collectViolations insightsLayerMissing e9005Violation
      (getResources cfn "AWS::Lambda::Function") = .ok ms := hok
  exact collectViolations_count_one _ ms hnd hmem (insightsLayerMissing_of_noLayers r hnl)
    (fun k hk => by
      have hpath := congrArg RuleMatch.path hk
      simpa [e9005Violation] using hpath) hok'

/-- C9 witness: the theorem applied to a template with the single bare
function `MyFunction`. -/
theorem c9_witness :
    ([e9005Violation "MyFunction"] : List RuleMatch).count (e9005Violation "MyFunction") = 1 :=
  c9_absent_layers_flagged c3FnTemplate "MyFunction"
    (.obj [("Type", .str "AWS::Lambda::Function")])
    [e9005Violation "MyFunction"]
    (by decide)
    (by show ("MyFunction", Value.obj [("Type", Value.str "AWS::Lambda::Function")])
          ∈ [("MyFunction", Value.obj [("Type", Value.str "AWS::Lambda::Function")])]
        exact List.mem_singleton_self _)
    rfl
    rfl

/-- C6 counterexample: a statement with the publish-event action and a
`StringEquals` condition on the `events:source` key whose value is the empty
string still yields a violation, although by the claim as stated (violation
iff NO condition on the key is present) none should be yielded. -/
theorem c6_counterexample :
    iamPutEventsMatch c6CexTemplate = .ok [e9007Violation "MyRole"]
    ∧ c6ClaimRoleQualifies c6CexRole = false :=
  ⟨rfl, rfl⟩

/-- C6 (amended): for every well-shaped role, E9007 yields at most one
violation per role (even when multiple statements qualify), and yields it
exactly when some statement of some inline policy has the publish-event
action in its `Action` and a falsy `Condition.StringEquals["events:source"]`
value — absent, null, or present-but-empty. -/
theorem c6_put_events_condition :
    ∀ cfn : Template,
      (getResources cfn "AWS::IAM::Role").all (fun kv => e9007RoleBenign kv.2) = true →
      iamPutEventsMatch cfn
        = .ok (((getResources cfn "AWS::IAM::Role").filter
            (fun kv => roleQualifies kv.2)).map (fun kv => e9007Violation kv.1)) := by
  intro cfn hb
  exact collectViolations_ok_of_pure (getResources cfn "AWS::IAM::Role")
    (fun kv hkv => roleFound_benign kv.2 (List.all_eq_true.mp hb kv hkv))

/-- C6 witness: the amended theorem applied to the counterexample template. -/
theorem c6_witness :
    iamPutEventsMatch c6CexTemplate
      = .ok (((getResources c6CexTemplate "AWS::IAM::Role").filter
          (fun kv => roleQualifies kv.2)).map (fun kv => e9007Violation kv.1)) :=
  c6_put_events_condition c6CexTemplate rfl

/-- C1 counterexample: a log group whose name interpolation embeds TWO
references still covers its first reference target — function `A` receives no
violation — while the claim as stated (covered set built only from log groups
with exactly one embedded reference) predicts exactly one violation for `A`. -/
theorem c1_counterexample :
    lambdaLogGroupMatch c1CexTemplate = .ok []
    ∧ c1ClaimViolations c1CexTemplate = [e9002Violation "A"] :=
  ⟨rfl, rfl⟩

/-- C1 (amended): the E9002 covered set is built from the named log-group
resources whose `LogGroupName` interpolation contains AT LEAST one embedded
reference, taking the FIRST (leftmost) one; every function whose logical name
is not covered yields exactly one violation, in document order.  In
particular `Foo` with log group `"/aws/lambda/$\x7bFoo\x7d"` yields zero
violations and `Bar` with no matching log group yields exactly one. -/
theorem c1_log_group_coverage :
    (∀ cfn : Template,
      (getResources cfn "AWS::Logs::LogGroup").all (fun kv => logGroupBenign kv.2) = true →
      lambdaLogGroupMatch cfn
        = .ok ((((getResources cfn "AWS::Lambda::Function").map Prod.fst).filter
            (fun f => !(e9002Covered cfn).contains f)).map e9002Violation))
    ∧ lambdaLogGroupMatch fooTemplate = .ok []
    ∧ lambdaLogGroupMatch barTemplate = .ok [e9002Violation "Bar"] := by
  refine ⟨?_, rfl, rfl⟩
  intro cfn hb
  have hk := logGroupKnown_benign (getResources cfn "AWS::Logs::LogGroup") hb
  simp only [lambdaLogGroupMatch, hk, exceptBind_ok, exceptPure_eq_ok, e9002Covered]

/-- C1 witness: the amended theorem applied to the `Foo` template. -/
theorem c1_witness :
    lambdaLogGroupMatch fooTemplate
      = .ok ((((getResources fooTemplate "AWS::Lambda::Function").map Prod.fst).filter
          (fun f => !(e9002Covered fooTemplate).contains f)).map e9002Violation) :=
  c1_log_group_coverage.1 fooTemplate rfl

/-- C2 counterexample: an events rule with two qualifying targets receives
two violations (one per qualifying target), not exactly one per triggering
rule as the claim states. -/
theorem c2_counterexample :
    lambdaRuleInvokeConfigMatch c2CexTemplate
      = .ok [e9004Violation "R", e9004Violation "R"]
    ∧ ([e9004Violation "R", e9004Violation "R"].count (e9004Violation "R") ≠ 1) :=
  ⟨rfl, by decide⟩

/-- C2 (amended): for every well-shaped template, E9004 yields one violation
for an events rule PER target whose `Fn::GetAtt` ARN names a declared Lambda
function outside the covered set (functions with an `EventInvokeConfig`
carrying a non-null `OnFailure` destination) — not at most once per rule. -/
theorem c2_one_violation_per_target :
    ∀ cfn : Template,
      (getResources cfn "AWS::Lambda::EventInvokeConfig").all
        (fun kv => invokeConfigBenign kv.2) = true →
      (getResources cfn "AWS::Events::Rule").all (fun kv => eventsRuleBenign kv.2) = true →
      lambdaRuleInvokeConfigMatch cfn
        = .ok ((getResources cfn "AWS::Events::Rule").flatMap (fun kv =>
            ((targetsOf kv.2).filter
              (e9004TargetQualifies ((getResources cfn "AWS::Lambda::Function").map Prod.fst)
                (e9004Covered cfn))).map (fun _ => e9004Violation kv.1))) := by
  intro cfn hic hrules
  have hinv := invokeConfigFunctions_benign
    (getResources cfn "AWS::Lambda::EventInvokeConfig") hic
  have hcov : ∀ s : String,
      (((getResources cfn "AWS::Lambda::EventInvokeConfig").filterMap
          (fun kv => icRefOf kv.2)).any (fun x => isStrEq x s))
        = (e9004Covered cfn).contains s := by
    intro s
    exact filterMap_any_isStrEq (getResources cfn "AWS::Lambda::EventInvokeConfig") s
  have hgo := eventsRulesGo_benign ((getResources cfn "AWS::Lambda::Function").map Prod.fst)
    ((getResources cfn "AWS::Lambda::EventInvokeConfig").filterMap (fun kv => icRefOf kv.2))
    (e9004Covered cfn) hcov (getResources cfn "AWS::Events::Rule") hrules
  simp only [lambdaRuleInvokeConfigMatch, hinv, exceptBind_ok, hgo]

/-- C2 witness: the amended theorem applied to the counterexample template. -/
theorem c2_witness :
    lambdaRuleInvokeConfigMatch c2CexTemplate
      = .ok ((getResources c2CexTemplate "AWS::Events::Rule").flatMap (fun kv =>
          ((targetsOf kv.2).filter
            (e9004TargetQualifies ((getResources c2CexTemplate "AWS::Lambda::Function").map
                Prod.fst)
              (e9004Covered c2CexTemplate))).map (fun _ => e9004Violation kv.1))) :=
  c2_one_violation_per_target c2CexTemplate rfl rfl

end CfnLint
